import Mathlib

/-!
# cloudsidecar: S3 object handler and listener supervisor

A shallow embedding of `pkg/aws/handler/s3/object/object_handler.go`,
`pkg/server/router.go` and the bucket ACL handler of `handler/aws.go`.

Conventions of the embedding:

* Go byte strings are Lean `String`s; text processing is done on `List Char`.
* A Go `map[string]V` is an association list `GoMap V`; iteration order is the
  list order, so a statement proved for every list covers every iteration order.
* `int64` values are `Int`s, wrapped with `wrapInt64` wherever the source
  computes on them.
* Collaborators that live outside the embedded files (cloud clients, the
  converter package, the file system, the UUID generator) are explicit
  parameters or explicit state.
* Concurrent requests are sequences of atomic steps: the two atomic additions
  of the counting router and the critical sections of the router wrapper.
* A Go panic is an explicit result: `none` for a supervisor pass, `Run.panic`
  for a handler with a copy loop, whose step budget running out is `Run.timeout`.
-/

namespace Sidecar

/-! ## Go runtime: maps -/

/-- A Go `map[string]V`, as an association list. -/
structure GoMap (V : Type) where
  entries : List (String × V)
deriving Repr, DecidableEq

namespace GoMap

variable {V : Type}

/-- The empty map, `make(map[string]V)`. -/
def empty : GoMap V := ⟨[]⟩

/-- Lookup `v, ok := m[k]`. -/
def get? (m : GoMap V) (k : String) : Option V :=
  (m.entries.find? (fun e => e.1 == k)).map (fun e => e.2)

/-- Membership test `_, ok := m[k]`. -/
def contains (m : GoMap V) (k : String) : Bool :=
  m.entries.any (fun e => e.1 == k)

/-- Removal `delete(m, k)`. -/
def delete (m : GoMap V) (k : String) : GoMap V :=
  ⟨m.entries.filter (fun e => e.1 != k)⟩

/-- Assignment `m[k] = v`. -/
def set (m : GoMap V) (k : String) (v : V) : GoMap V :=
  ⟨(m.delete k).entries ++ [(k, v)]⟩

/-- The keys of the map, in iteration order. -/
def keys (m : GoMap V) : List String :=
  m.entries.map (fun e => e.1)

end GoMap

/-! ## Go runtime: `strconv.ParseInt`, `strings.SplitN`, `int64` -/

/-- Two's complement wrap-around of a mathematical integer into `int64`. -/
def wrapInt64 (x : Int) : Int :=
  (x + 2 ^ 63) % 2 ^ 64 - 2 ^ 63

/-- The two error kinds of `strconv` (`ErrSyntax` is `ErrInvalid` here). -/
inductive NumError where
  | ErrInvalid
  | ErrRange
deriving Repr, DecidableEq

/-- Value of a decimal digit; `none` for every other character, which
`strconv.ParseUint` with base 10 rejects. -/
def digitVal (c : Char) : Option Nat :=
  if 48 ≤ c.toNat ∧ c.toNat ≤ 57 then some (c.toNat - 48) else none

/-- The largest `uint64`. -/
def maxUint64 : Nat := 2 ^ 64 - 1

/-- The main loop of `strconv.ParseUint(s, 10, 64)`: `n` is the value read so
far. It returns at the first offending byte. -/
def parseUintLoop : Nat → List Char → Nat × Option NumError
  | n, [] => (n, none)
  | n, c :: cs =>
    match digitVal c with
    | none => (0, some .ErrInvalid)
    | some d =>
      if n ≥ maxUint64 / 10 + 1 then (maxUint64, some .ErrRange)
      else
        let n10 := n * 10
        let n1 := (n10 + d) % 2 ^ 64
        if n1 < n10 ∨ n1 > maxUint64 then (maxUint64, some .ErrRange)
        else parseUintLoop n1 cs

/-- Model of `strconv.ParseUint(s, 10, 64)`. -/
def ParseUint (s : List Char) : Nat × Option NumError :=
  match s with
  | [] => (0, some .ErrInvalid)
  | _ => parseUintLoop 0 s

/-- Model of `strconv.ParseInt(s, 10, 64)` on the characters of `s`: the value
and the error. A malformed number gives `0`, an out-of-range one the nearest
bound. -/
def ParseIntChars (s : List Char) : Int × Option NumError :=
  match s with
  | [] => (0, some .ErrInvalid)
  | c :: cs =>
    let neg := c == '-'
    let rest := if c == '+' ∨ c == '-' then cs else c :: cs
    match ParseUint rest with
    | (_, some .ErrInvalid) => (0, some .ErrInvalid)
    | (un, _) =>
      let cutoff : Nat := 2 ^ 63
      if !neg ∧ un ≥ cutoff then ((cutoff : Int) - 1, some .ErrRange)
      else if neg ∧ un > cutoff then (-(cutoff : Int), some .ErrRange)
      else
        let n := wrapInt64 un
        (if neg then wrapInt64 (-n) else n, none)

/-- Model of `strconv.ParseInt(s, 10, 64)`. -/
def ParseInt (s : String) : Int × Option NumError :=
  ParseIntChars s.data

/-- Split a character list at the first occurrence of the separator
character: `none` when the separator does not occur. -/
def splitFirst (sep : Char) : List Char → Option (List Char × List Char)
  | [] => none
  | c :: cs =>
    if c = sep then some ([], cs)
    else (splitFirst sep cs).map (fun p => (c :: p.1, p.2))

/-- Model of `strings.SplitN(s, sep, 2)` for a one-character separator: one
piece when the separator is absent, otherwise the text before its first
occurrence and the text after it. -/
def SplitN2 (s : List Char) (sep : Char) : List (List Char) :=
  match splitFirst sep s with
  | none => [s]
  | some (a, b) => [a, b]

/-- Model of `fmt.Sprintf("%d", n)` for an `int64`. -/
def formatInt (n : Int) : String :=
  toString n

/-! ## Go runtime: `net/http` -/

/-- Whether a byte may occur in a header field name (an RFC 7230 token). -/
def validHeaderFieldByte (c : Char) : Bool :=
  c.isAlphanum || c.toNat ∈ [33, 35, 36, 37, 38, 39, 42, 43, 45, 46, 94, 95, 96, 124, 126]

/-- The case-fixing loop of `textproto.CanonicalMIMEHeaderKey`: upper case at
the start and after a hyphen, lower case elsewhere. -/
def canonicalLoop : Bool → List Char → List Char
  | _, [] => []
  | upper, c :: cs =>
    let c1 := if upper ∧ c.isLower then c.toUpper
              else if !upper ∧ c.isUpper then c.toLower else c
    c1 :: canonicalLoop (c1 == '-') cs

/-- Model of `textproto.CanonicalMIMEHeaderKey`: a key with a byte that is not
a token byte is returned unchanged. -/
def CanonicalMIMEHeaderKey (s : String) : String :=
  if s.data.all validHeaderFieldByte then String.mk (canonicalLoop true s.data) else s

/-- A Go `http.Header`: canonical field name to the list of its values. -/
structure Header where
  fields : GoMap (List String)
deriving Repr, DecidableEq

namespace Header

/-- The empty header. -/
def empty : Header := ⟨GoMap.empty⟩

/-- Method `Header.Get`: the first value of the canonicalised key, or `""`. -/
def Get (h : Header) (key : String) : String :=
  match h.fields.get? (CanonicalMIMEHeaderKey key) with
  | some (v :: _) => v
  | _ => ""

/-- Method `Header.Set`: replace the values of the canonicalised key. -/
def Set (h : Header) (key value : String) : Header :=
  ⟨h.fields.set (CanonicalMIMEHeaderKey key) [value]⟩

end Header

/-- The state of an `http.ResponseWriter`: the header map, the status line once
it has been sent, and the body bytes written so far. -/
structure ResponseWriter where
  header : Header
  wroteHeader : Option Nat
  body : String
deriving Repr, DecidableEq

namespace ResponseWriter

/-- A fresh response writer. -/
def new : ResponseWriter := ⟨Header.empty, none, ""⟩

/-- Method `WriteHeader(code)`: only the first call sends the status line. -/
def WriteHeader (w : ResponseWriter) (code : Nat) : ResponseWriter :=
  match w.wroteHeader with
  | some _ => w
  | none => { w with wroteHeader := some code }

/-- Method `Write(bytes)`: sends an implicit `200` status line first when none has
been sent. -/
def Write (w : ResponseWriter) (b : String) : ResponseWriter :=
  let w1 := w.WriteHeader 200
  { w1 with body := w1.body ++ b }

/-- The status the client sees: the status line sent, `200` when the handler
returns without sending one. -/
def status (w : ResponseWriter) : Nat :=
  w.wroteHeader.getD 200

end ResponseWriter

/-- The part of an `http.Request` the handlers read: the route variables of
`mux.Vars`, the header and the body stream. -/
structure Request where
  vars : GoMap String
  header : Header
  body : String
deriving Repr, DecidableEq

/-- Indexing `mux.Vars(r)[name]`: the empty string for a missing variable. -/
def Request.var (r : Request) (name : String) : String :=
  (r.vars.get? name).getD ""

/-! ## The file system under `multipart_db_directory` -/

/-- The file system as the handlers see it: the files and their contents, and
the two ways a file operation can fail. -/
structure FileSystem where
  files : GoMap String
  canCreate : String → Bool
  canWrite : String → Bool

namespace FileSystem

/-- Model of `os.Create(path)`: creates the file, or truncates it when it
exists; fails when the path cannot be created. -/
def Create (fs : FileSystem) (path : String) : Except String FileSystem :=
  if fs.canCreate path then .ok { fs with files := fs.files.set path "" }
  else .error ("open " ++ path ++ ": no such file or directory")

/-- Model of `f.WriteString(s)` on a file just opened by `Create`: appends at
the file offset, which is the end of what this handle has written. -/
def WriteString (fs : FileSystem) (path : String) (s : String) : Except String FileSystem :=
  if fs.canWrite path then
    .ok { fs with files := fs.files.set path ((fs.files.get? path).getD "" ++ s) }
  else .error ("write " ++ path ++ ": input/output error")

end FileSystem

/-! ## The S3 object handler: requests and collaborators -/

/-- The struct literal `ChunkedReaderWrapper{Reader: &r.Body, ChunkNextPosition: -1}`
built by `PutParseInput`: the wrapped body stream and the decoder position. -/
structure ChunkedReaderWrapper where
  Reader : String
  ChunkNextPosition : Int
deriving Repr, DecidableEq

/-- The `Body` field of an upload input: the request body itself, or the
chunked decoder wrapped around it. -/
inductive UploadBody where
  | raw (body : String)
  | chunked (wrapper : ChunkedReaderWrapper)
deriving Repr, DecidableEq

/-- The fields of `s3manager.UploadInput` that `PutParseInput` sets. -/
structure UploadInput where
  Bucket : String
  Key : String
  ContentMD5 : Option String
  ContentType : Option String
  Body : UploadBody
deriving Repr, DecidableEq

/-- The fields of `s3.UploadPartInput` that `UploadPartParseInput` sets. -/
structure UploadPartInput where
  Bucket : String
  Key : String
  PartNumber : Int
  UploadId : String
deriving Repr, DecidableEq

/-- The fields of `s3.CreateMultipartUploadInput` set by `MultiPartParseInput`. -/
structure CreateMultipartUploadInput where
  Bucket : String
  Key : String
deriving Repr, DecidableEq

/-- The fields of `s3.CreateMultipartUploadOutput` set by `MultiPartHandle`. -/
structure CreateMultipartUploadOutput where
  Key : String
  Bucket : String
  UploadId : Option String
deriving Repr, DecidableEq

/-- The fields of `s3.GetObjectInput` set by `GetParseInput` and `GetHandle`. -/
structure GetObjectInput where
  Bucket : String
  Key : String
  Range : Option String
deriving Repr, DecidableEq

/-- The error of a `Read` call: `io.EOF` or any other error. -/
inductive ReadError where
  | EOF
  | other (msg : String)
deriving Repr, DecidableEq

/-- What one `Read(buffer)` call returns: the bytes placed in the buffer and
the error. -/
structure ReadResult where
  data : String
  err : Option ReadError
deriving Repr, DecidableEq

/-- An upstream reader: the result of its `i`-th `Read` call. -/
structure Reader where
  read : Nat → ReadResult

/-- The attributes of a GCS object (`storage.ObjectAttrs`) the sidecar uses. -/
structure ObjectAttrs where
  Size : Nat
  MD5 : String
  ContentType : String
deriving Repr, DecidableEq

/-- The GCS client as the handler uses it. `Upload b k input` is the error
returned by `converter.GCPUpload(input, Bucket(b).Object(k).NewWriter(ctx))`;
the other fields are the results of the calls of the same name on
`Bucket(b).Object(k)`. -/
structure GCPClient where
  Upload : String → String → UploadInput → Option String
  Attrs : String → String → Except String ObjectAttrs
  NewRangeReader : String → String → Int → Int → Except String Reader
  NewReader : String → String → Except String Reader

/-- The fields of `s3.GetObjectOutput` that `GetHandle` copies. `LastModified`
is the time already formatted with `time.RFC1123`. -/
structure GetObjectOutput where
  ServerSideEncryption : String
  LastModified : Option String
  ContentRange : Option String
  ETag : Option String
  ContentLength : Option Int
  Body : Reader

/-- The AWS S3 client as the handler uses it: the result of `Send()` on each
request, and of `s3manager` `Upload`. -/
structure S3Client where
  UploadPart : UploadPartInput → Request → Except String (Option String)
  Upload : UploadInput → Option String
  CreateMultipartUpload : CreateMultipartUploadInput → Except String CreateMultipartUploadOutput
  GetObject : GetObjectInput → Except String GetObjectOutput

/-- The handler `s3_handler.Handler` embedded in `object.Handler`, with the
package-level collaborators it calls: `GCPClient` is `none` when the tenant has
no GCP destination; `multipartDir` is
`Config.GetString("gcp_destination_config.gcs_config.multipart_db_directory")`;
`GCSAttrToHeaders` is the converter of that name acting on the response header
(its attribute argument is `none` for a nil pointer); `Marshal` is
`xml.MarshalIndent(resp, "  ", "    ")`. -/
structure Handler where
  GCPClient : Option GCPClient
  S3Client : S3Client
  multipartDir : String
  BucketRename : String → String
  GCSAttrToHeaders : Option ObjectAttrs → Header → Header
  Marshal : CreateMultipartUploadOutput → String

/-- Modelled from the spec: the constant `s3_handler.XmlHeader`, declared outside
the embedded files; the literal XML header followed by a newline. -/
def XmlHeader : String := "<?xml version=\"1.0\" encoding=\"UTF-8\"?>\n"

/-- The calls a handler makes on its collaborators, in order. -/
inductive Event where
  | gcpUpload (bucket key : String) (input : UploadInput)
  | gcpWriterClose (bucket key : String)
  | gcpAttrs (bucket key : String)
  | gcpRangeReader (bucket key : String) (offset length : Int)
  | gcpReader (bucket key : String)
  | s3UploadPart (input : UploadPartInput)
  | s3Upload (input : UploadInput)
  | s3CreateMultipartUpload (input : CreateMultipartUploadInput)
  | s3GetObject (input : GetObjectInput)
  | read (index : Nat)
  | readerClose
  | requestBodyClose
deriving Repr, DecidableEq

/-- What a handler leaves behind: the response, the file system and the calls
made. -/
structure Outcome where
  writer : ResponseWriter
  fs : FileSystem
  trace : List Event

/-! ## The S3 object handler: parsing -/

/-- Embedding of `Handler.UploadPartParseInput`: the input and the error of
parsing `partNumber`. -/
def UploadPartParseInput (r : Request) : UploadPartInput × Option NumError :=
  let bucket := r.var "bucket"
  let key := r.var "key"
  let (partNumber, err) := ParseInt (r.var "partNumber")
  let uploadId := r.var "uploadId"
  ({ Bucket := bucket, Key := key, PartNumber := partNumber, UploadId := uploadId }, err)

/-- Embedding of `Handler.MultiPartParseInput`. -/
def MultiPartParseInput (r : Request) : CreateMultipartUploadInput :=
  { Bucket := r.var "bucket", Key := r.var "key" }

/-- Embedding of `Handler.PutParseInput`. The decoded content length is parsed
only for a debug log line and is not part of the result. -/
def PutParseInput (r : Request) : UploadInput :=
  let bucket := r.var "bucket"
  let key := r.var "key"
  let md5 := r.header.Get "Content-MD5"
  let ctype := r.header.Get "Content-Type"
  let isChunked : Bool := r.header.Get "x-amz-content-sha256" == "STREAMING-AWS4-HMAC-SHA256-PAYLOAD"
  { Bucket := bucket
    Key := key
    ContentMD5 := if md5 != "" then some md5 else none
    ContentType := if ctype != "" then some ctype else none
    Body := if !isChunked then .raw r.body
            else .chunked { Reader := r.body, ChunkNextPosition := -1 } }

/-- Embedding of `Handler.GetParseInput`. -/
def GetParseInput (r : Request) : GetObjectInput :=
  { Bucket := r.var "bucket", Key := r.var "key", Range := none }

/-! ## The S3 object handler: multipart upload -/

/-- The error response every failing branch writes: `WriteHeader(404)` and the
error text as body. -/
def writeError (w : ResponseWriter) (msg : String) : ResponseWriter :=
  (w.WriteHeader 404).Write msg

/-- The manifest path `fmt.Sprintf("%s/%s", multipart_db_directory, id)`. -/
def manifestPath (h : Handler) (id : String) : String :=
  h.multipartDir ++ "/" ++ id

/-- The part object key `fmt.Sprintf("%s-part-%d", key, partNumber)`. -/
def partKey (key : String) (partNumber : Int) : String :=
  key ++ "-part-" ++ formatInt partNumber

/-- Embedding of `Handler.UploadPartHandle`. -/
def UploadPartHandle (h : Handler) (fs : FileSystem) (writer : ResponseWriter)
    (request : Request) : Outcome :=
  let s3Req := (UploadPartParseInput request).1
  match h.GCPClient with
  | some gcp =>
    let key := partKey s3Req.Key s3Req.PartNumber
    let gReq := PutParseInput request
    let trace := [Event.gcpUpload s3Req.Bucket key gReq, Event.gcpWriterClose s3Req.Bucket key]
    match gcp.Upload s3Req.Bucket key gReq with
    | some err => ⟨writeError writer err, fs, trace⟩
    | none =>
      let attrs := (gcp.Attrs s3Req.Bucket key).toOption
      let trace := trace ++ [Event.gcpAttrs s3Req.Bucket key]
      let writer := { writer with header := h.GCSAttrToHeaders attrs writer.header }
      let path := manifestPath h s3Req.UploadId
      match fs.Create path with
      | .error fileErr => ⟨writeError writer fileErr, fs, trace⟩
      | .ok fs1 =>
        match fs1.WriteString path (writer.header.Get "ETag" ++ "," ++ key ++ "\n") with
        | .error fileErr => ⟨writeError writer fileErr, fs1, trace⟩
        | .ok fs2 => ⟨(writer.WriteHeader 200).Write "", fs2, trace⟩
  | none =>
    let trace := [Event.s3UploadPart s3Req]
    match h.S3Client.UploadPart s3Req request with
    | .error err => ⟨writeError writer err, fs, trace⟩
    | .ok etag =>
      let writer := match etag with
        | some header => { writer with header := writer.header.Set "ETag" header }
        | none => writer
      ⟨(writer.WriteHeader 200).Write "", fs, trace⟩

/-- Embedding of `Handler.MultiPartHandle`; `uuid` is the value of
`uuid2.New().String()`. On a failure to create the manifest the source prints
the outer, still nil, `err`, hence the body `<nil>`. -/
def MultiPartHandle (h : Handler) (uuid : String) (fs : FileSystem) (writer : ResponseWriter)
    (request : Request) : Outcome × Option CreateMultipartUploadOutput :=
  let s3Req := MultiPartParseInput request
  match h.GCPClient with
  | some _ =>
    let path := manifestPath h uuid
    match fs.Create path with
    | .error _ => (⟨writeError writer "<nil>", fs, []⟩, none)
    | .ok fs1 =>
      let resp : CreateMultipartUploadOutput :=
        { Key := s3Req.Key, Bucket := s3Req.Bucket, UploadId := some uuid }
      (⟨(writer.Write XmlHeader).Write (h.Marshal resp), fs1, []⟩, some resp)
  | none =>
    let trace := [Event.s3CreateMultipartUpload s3Req]
    match h.S3Client.CreateMultipartUpload s3Req with
    | .error err => (⟨writeError writer err, fs, trace⟩, none)
    | .ok resp => (⟨(writer.Write XmlHeader).Write (h.Marshal resp), fs, trace⟩, some resp)

/-- The upload step of `Handler.PutHandle`: the error returned by the
destination (`converter.GCPUpload` in GCS mode, `uploader.Upload` in S3 mode)
and the calls made. -/
def putUpload (h : Handler) (s3Req : UploadInput) : Option String × List Event :=
  match h.GCPClient with
  | some gcp =>
    let bucket := h.BucketRename s3Req.Bucket
    (gcp.Upload bucket s3Req.Key s3Req,
      [Event.gcpUpload bucket s3Req.Key s3Req, Event.gcpWriterClose bucket s3Req.Key])
  | none => (h.S3Client.Upload s3Req, [Event.s3Upload s3Req])

/-- Embedding of `Handler.PutHandle`. The error of the upload is logged and
nothing else is done with it. -/
def PutHandle (h : Handler) (fs : FileSystem) (writer : ResponseWriter)
    (request : Request) : Outcome :=
  let s3Req := PutParseInput request
  let upload := putUpload h s3Req
  ⟨(writer.WriteHeader 200).Write "", fs, upload.2 ++ [Event.requestBodyClose]⟩

/-! ## The S3 object handler: GET -/

/-- How a run of a handler ends: it returns, it panics, or the step budget given
to its copy loop runs out before the loop ends. -/
inductive Run (α : Type) where
  | done (a : α)
  | panic
  | timeout

/-- The outcome of a run that returned. -/
def Run.result {α : Type} : Run α → Option α
  | .done a => some a
  | .panic => none
  | .timeout => none

/-- The range-parsing step of `GetHandle` (GCS mode): the offset and the length
handed to `NewRangeReader`. The result is `none` when `equalSplit[1]` is out of
range, which panics. -/
def parseRange (range : String) : Option (Int × Int) :=
  let equalSplit := SplitN2 range.data '='
  match equalSplit.get? 1 with
  | none => none
  | some afterEqual =>
    let byteSplit := SplitN2 afterEqual '-'
    let startByte := (ParseIntChars (byteSplit.headD [])).1
    let length : Int :=
      if byteSplit.length > 1 then
        let endByte := (ParseIntChars ((byteSplit.get? 1).getD [])).1
        wrapInt64 (wrapInt64 (endByte + 1) - startByte)
      else -1
    some (startByte, length)

/-- The copy loop of `GetHandle`: read into the buffer, write what was read,
stop on `io.EOF` and on nothing else. `i` is the number of `Read` calls made
so far; the first argument bounds the number of iterations. -/
def copyLoop (reader : Reader) : Nat → Nat → ResponseWriter → List Event →
    Option (ResponseWriter × List Event)
  | 0, _, _, _ => none
  | fuel + 1, i, w, trace =>
    let r := reader.read i
    let w1 := if r.data.length > 0 then w.Write r.data else w
    if r.err = some ReadError.EOF then some (w1, trace ++ [Event.read i])
    else copyLoop reader fuel (i + 1) w1 (trace ++ [Event.read i])

/-- Whether the first list starts the second. -/
def startsWith : List Char → List Char → Bool
  | [], _ => true
  | _ :: _, [] => false
  | a :: as, b :: bs => a == b && startsWith as bs

/-- Model of `strings.Replace(s, old, new, 1)` for a non-empty `old`. -/
def replaceFirst (old new : List Char) : List Char → List Char
  | [] => []
  | c :: cs =>
    if startsWith old (c :: cs) then new ++ (c :: cs).drop old.length
    else c :: replaceFirst old new cs

/-- The header copying of `GetHandle` in S3 mode. -/
def s3GetHeaders (resp : GetObjectOutput) (hd : Header) : Header :=
  let hd := if resp.ServerSideEncryption != "" then
      hd.Set "ServerSideEncryption" resp.ServerSideEncryption else hd
  let hd := match resp.LastModified with
    | some lastMod =>
      hd.Set "Last-Modified" (String.mk (replaceFirst "UTC".data "GMT".data lastMod.data))
    | none => hd
  let hd := match resp.ContentRange with
    | some v => hd.Set "ContentRange" v
    | none => hd
  let hd := match resp.ETag with
    | some v => hd.Set "ETag" v
    | none => hd
  match resp.ContentLength with
  | some v => hd.Set "Content-Length" (formatInt v)
  | none => hd

/-- Embedding of `Handler.GetHandle`; `fuel` bounds the iterations of the copy
loop. -/
def GetHandle (fuel : Nat) (h : Handler) (fs : FileSystem) (writer : ResponseWriter)
    (request : Request) : Run Outcome :=
  let input0 := GetParseInput request
  let rangeHeader := request.header.Get "Range"
  let input : GetObjectInput :=
    if rangeHeader != "" then { input0 with Range := some rangeHeader } else input0
  match h.GCPClient with
  | some gcp =>
    let bucket := h.BucketRename input.Bucket
    let trace := [Event.gcpAttrs bucket input.Key]
    match gcp.Attrs bucket input.Key with
    | .error _ => .done ⟨writer.WriteHeader 404, fs, trace⟩
    | .ok attrs =>
      let writer := { writer with header := h.GCSAttrToHeaders (some attrs) writer.header }
      let opened : Option (Except String Reader × Event) :=
        match input.Range with
        | some range =>
          (parseRange range).map (fun p =>
            (gcp.NewRangeReader bucket input.Key p.1 p.2,
             Event.gcpRangeReader bucket input.Key p.1 p.2))
        | none => some (gcp.NewReader bucket input.Key, Event.gcpReader bucket input.Key)
      match opened with
      | none => .panic
      | some (.error _, ev) => .done ⟨writer.WriteHeader 404, fs, trace ++ [ev]⟩
      | some (.ok reader, ev) =>
        match copyLoop reader fuel 0 writer (trace ++ [ev]) with
        | none => .timeout
        | some (w, tr) => .done ⟨w, fs, tr ++ [Event.readerClose]⟩
  | none =>
    let trace := [Event.s3GetObject input]
    match h.S3Client.GetObject input with
    | .error _ => .done ⟨writer.WriteHeader 404, fs, trace⟩
    | .ok resp =>
      let writer := { writer with header := s3GetHeaders resp writer.header }
      match copyLoop resp.Body fuel 0 writer trace with
      | none => .timeout
      | some (w, tr) => .done ⟨w, fs, tr ++ [Event.readerClose]⟩

/-! ## An in-memory destination, for concrete runs -/

/-- A reader over fixed content, following the contract of the GCS client:
bytes from `offset`, `length` of them, to the end of the object when `length`
is negative; data comes in buffers of 4096 bytes and `io.EOF` follows the last. -/
def memReader (content : String) (offset length : Int) : Reader where
  read i :=
    let fromOffset := content.data.drop offset.toNat
    let slice := if length < 0 then fromOffset else fromOffset.take length.toNat
    let chunk := (slice.drop (i * 4096)).take 4096
    if chunk.isEmpty then ⟨"", some ReadError.EOF⟩ else ⟨String.mk chunk, none⟩

/-- A GCS client over a fixed list of objects `(bucket, key, content)`; uploads
succeed. -/
def memGCP (objects : List (String × String × String)) : GCPClient where
  Upload _ _ _ := none
  Attrs b k :=
    match objects.find? (fun o => o.1 == b && o.2.1 == k) with
    | some o => .ok ⟨o.2.2.length, "", ""⟩
    | none => .error "storage: object doesn't exist"
  NewRangeReader b k offset length :=
    match objects.find? (fun o => o.1 == b && o.2.1 == k) with
    | some o => .ok (memReader o.2.2 offset length)
    | none => .error "storage: object doesn't exist"
  NewReader b k :=
    match objects.find? (fun o => o.1 == b && o.2.1 == k) with
    | some o => .ok (memReader o.2.2 0 (-1))
    | none => .error "storage: object doesn't exist"

/-- An S3 client whose every call fails; used where the tenant is in GCS mode. -/
def noS3 : S3Client where
  UploadPart _ _ := .error "no S3 destination"
  Upload _ := some "no S3 destination"
  CreateMultipartUpload _ := .error "no S3 destination"
  GetObject _ := .error "no S3 destination"

/-- A handler in GCS mode over in-memory objects; the converter sets `ETag` to
a fixed tag per call, and the manifest directory is `/tmp/multipart`. -/
def memHandler (objects : List (String × String × String)) (etag : String) : Handler where
  GCPClient := some (memGCP objects)
  S3Client := noS3
  multipartDir := "/tmp/multipart"
  BucketRename b := b
  GCSAttrToHeaders _ hd := hd.Set "ETag" etag
  Marshal resp := "<UploadId>" ++ resp.UploadId.getD "" ++ "</UploadId>"

/-- A file system with the given files in which every operation succeeds. -/
def memFS (files : List (String × String)) : FileSystem where
  files := ⟨files⟩
  canCreate _ := true
  canWrite _ := true

/-- A request with the given route variables and single-valued headers. -/
def mkRequest (vars : List (String × String)) (headers : List (String × String))
    (body : String) : Request where
  vars := ⟨vars⟩
  header := headers.foldl (fun hd kv => hd.Set kv.1 kv.2) Header.empty
  body := body

/-- A GCS client over no objects whose uploads fail with the given error. -/
def failingGCP (err : String) : GCPClient where
  Upload _ _ _ := some err
  Attrs _ _ := .error "storage: object doesn't exist"
  NewRangeReader _ _ _ _ := .error "storage: object doesn't exist"
  NewReader _ _ := .error "storage: object doesn't exist"

/-- The request `PUT /b1/big?partNumber=n&uploadId=U` with body `AAA`. -/
def uploadPartRequest (n : String) : Request :=
  mkRequest [("bucket", "b1"), ("key", "big"), ("partNumber", n), ("uploadId", "U")] [] "AAA"

/-- The request `GET /b1/nums` with the given `Range` header. -/
def rangeRequest (range : String) : Request :=
  mkRequest [("bucket", "b1"), ("key", "nums")] [("Range", range)] ""

/-- The handler over the single object `b1/nums` holding `0123456789`. -/
def numsHandler : Handler :=
  memHandler [("b1", "nums", "0123456789")] "etag"

/-- The number a digit string denotes, continuing from `acc`. -/
def digitsValue (acc : Nat) (cs : List Char) : Nat :=
  cs.foldl (fun n c => n * 10 + (digitVal c).getD 0) acc

/-! ## The listener supervisor: configuration and objects -/

/-- The fields of the GCP destination of a tenant that `router.go` reads;
`none` is a nil pointer. -/
structure GCPDestinationConfig where
  KeyFileLocation : Option String
  KeyFromUrl : Option Bool
  RawKey : Option String
  Project : String
deriving Repr, DecidableEq

/-- The fields of the AWS destination of a tenant that `router.go` reads. -/
structure AWSDestinationConfig where
  AccessKeyId : String
  SecretAccessKey : String
deriving Repr, DecidableEq

/-- One tenant entry, `conf.AWSConfig`, as `router.go` reads it. -/
structure AWSConfig where
  ServiceType : String
  Port : Int
  Middleware : List String
  DestinationAWSConfig : Option AWSDestinationConfig
  DestinationGCPConfig : Option GCPDestinationConfig
deriving Repr, DecidableEq

/-- The configuration document, `conf.Config`. -/
structure Config where
  AwsConfigs : GoMap AWSConfig
  GcpConfigs : GoMap AWSConfig
  PanicOnBindError : Bool
deriving Repr, DecidableEq

/-- A `*mux.Router` built by a factory: its address, the service whose routes
were registered on it (`""` when only the catch-all was), and the middlewares
installed with `Use`, in order. -/
structure MuxRouter where
  addr : Nat
  service : String
  middleware : List String
deriving Repr, DecidableEq

/-- A `*RouterWithCounter`: its address, the mux and the in-flight counter. -/
structure RouterWithCounter where
  addr : Nat
  mux : MuxRouter
  currentRequests : Int
deriving Repr, DecidableEq

/-- A service handler object behind `awshandler.HandlerInterface`: its address,
its service type and the tenant key whose configuration subtree it holds. -/
structure ServiceHandler where
  addr : Nat
  service : String
  key : String
deriving Repr, DecidableEq

/-- A `*http.Server`: its address in memory, the address of the `RouteWrapper`
installed as its `Handler`, and its bind address `Addr`. -/
structure Server where
  addr : Nat
  Handler : Nat
  Addr : String
deriving Repr, DecidableEq

/-- What `plugin.Open` and the lookup of `Register` can give for a service
type: opening fails, the lookup fails, the symbol has another type (the type
assertion panics), the register function returns a nil handler (the call of
`SetConfig` panics), or it returns a handler. -/
inductive PluginOutcome where
  | openError
  | lookupError
  | badSymbol
  | registersNil
  | registers
deriving Repr, DecidableEq

/-- The collaborators of the supervisor that live outside `router.go`: the
names in the registry of `getMiddlewares`, whether `newGCPPubSub` and
`newGCPKmsClient` fail, whether the enterprise extension takes over a tenant,
what the plugin loader finds, and whether `http2.ConfigureServer` fails for a
bind address. -/
structure Externals where
  middlewares : Config → List String
  pubSubFails : String → String → Bool
  kmsFails : String → Bool
  enterpriseRegisters : String → AWSConfig → Bool
  plugin : String → PluginOutcome
  http2Fails : String → Bool

/-- What a factory returns: `(handler, router, toListen)`; a nil handler is
`none`. -/
structure Built where
  handler : Option ServiceHandler
  router : MuxRouter
  toListen : Bool
deriving Repr, DecidableEq

/-- The package-level state of the supervisor and the effects of its passes:
the handler, route and server maps; the memory of `RouteWrapper`s (the inner
router of the wrapper at an address); the allocation counter; the servers
closed, the background drains started by `ChangeRouter` (old inner router and
old handler), the serving tasks started, the wait-group counter and the error
log. -/
structure Supervisor where
  awsHandlers : GoMap (Option ServiceHandler)
  gcpHandlers : GoMap (Option ServiceHandler)
  routes : GoMap Nat
  awsServers : GoMap Server
  gcpServers : GoMap Server
  wrapperRouter : Nat → Option RouterWithCounter
  nextAddr : Nat
  closed : List Server
  draining : List (Option RouterWithCounter × Option ServiceHandler)
  serving : List (Server × Option ServiceHandler)
  waitGroup : Int
  errors : List String

/-- The state of a freshly started process. -/
def Supervisor.init : Supervisor where
  awsHandlers := GoMap.empty
  gcpHandlers := GoMap.empty
  routes := GoMap.empty
  awsServers := GoMap.empty
  gcpServers := GoMap.empty
  wrapperRouter _ := none
  nextAddr := 0
  closed := []
  draining := []
  serving := []
  waitGroup := 0
  errors := []

/-! ## The listener supervisor: factories -/

/-- The choice of the GCS client constructor in the `s3` and `gcs` branches:
`false` when the raw key is dereferenced while nil, which panics. -/
def storageClientOk (dest : Option GCPDestinationConfig) : Bool :=
  match dest with
  | none => true
  | some d =>
    if d.KeyFileLocation.isSome then true
    else if d.KeyFromUrl == some true then true
    else d.RawKey.isSome

/-- The Pub/Sub and KMS client set-up of the `kinesis` and `sqs` branches:
`false` when it panics (nil key file location, or a client constructor fails). -/
def pubSubClientOk (ext : Externals) (dest : Option GCPDestinationConfig) : Bool :=
  match dest with
  | none => true
  | some d =>
    match d.KeyFileLocation with
    | none => false
    | some keyFile => !ext.pubSubFails d.Project keyFile && !ext.kmsFails keyFile

/-- Embedding of `CreateHandlerAWS`. The mux is allocated at `addr`, the handler
at `addr + 1`; `none` is a panic. -/
def CreateHandlerAWS (ext : Externals) (key : String) (awsConfig : AWSConfig) (addr : Nat) :
    Option Built :=
  let r : MuxRouter := ⟨addr, "", ["loggingMiddleware"]⟩
  if awsConfig.ServiceType == "s3" then
    if storageClientOk awsConfig.DestinationGCPConfig then
      some ⟨some ⟨addr + 1, "s3", key⟩, { r with service := "s3" }, true⟩
    else none
  else if awsConfig.ServiceType == "kinesis" then
    if pubSubClientOk ext awsConfig.DestinationGCPConfig then
      some ⟨some ⟨addr + 1, "kinesis", key⟩, { r with service := "kinesis" }, true⟩
    else none
  else if awsConfig.ServiceType == "sqs" then
    if pubSubClientOk ext awsConfig.DestinationGCPConfig then
      some ⟨some ⟨addr + 1, "sqs", key⟩, { r with service := "sqs" }, true⟩
    else none
  else if awsConfig.ServiceType == "" then
    some ⟨none, r, true⟩
  else if ext.enterpriseRegisters key awsConfig then
    some ⟨none, { r with service := awsConfig.ServiceType }, false⟩
  else
    match ext.plugin awsConfig.ServiceType with
    | .openError => some ⟨none, r, false⟩
    | .lookupError => some ⟨none, r, false⟩
    | .badSymbol => none
    | .registersNil => none
    | .registers =>
      some ⟨some ⟨addr + 1, awsConfig.ServiceType, key⟩,
        { r with service := awsConfig.ServiceType }, true⟩

/-- Embedding of `CreateHandlerGCP`. -/
def CreateHandlerGCP (_ext : Externals) (key : String) (gcpConfig : AWSConfig) (addr : Nat) :
    Option Built :=
  let r : MuxRouter := ⟨addr, "", ["loggingMiddleware"]⟩
  if gcpConfig.ServiceType == "gcs" then
    if storageClientOk gcpConfig.DestinationGCPConfig then
      some ⟨some ⟨addr + 1, "gcs", key⟩, { r with service := "gcs" }, true⟩
    else none
  else some ⟨none, r, true⟩

/-! ## The listener supervisor: `Listen` -/

/-- The middleware loop of `Listen`: install each configured middleware found in
the registry, log an error for each one missing. -/
def useMiddlewares (available : List String) (names : List String) (r : MuxRouter)
    (errors : List String) : MuxRouter × List String :=
  names.foldl (fun acc name =>
    if name ∈ available then ({ acc.1 with middleware := acc.1.middleware ++ [name] }, acc.2)
    else (acc.1, acc.2 ++ ["Could not find middleware " ++ name])) (r, errors)

/-- Embedding of `RouteWrapper.ChangeRouter` on the wrapper at address
`wrapper`: the inner router is replaced and a background drain of the old inner
router with the old handler is started. -/
def ChangeRouter (s : Supervisor) (wrapper : Nat) (newRouter : RouterWithCounter)
    (oldHandler : Option ServiceHandler) : Supervisor :=
  let oldRouter := s.wrapperRouter wrapper
  { s with
    wrapperRouter := fun p => if p = wrapper then some newRouter else s.wrapperRouter p
    draining := s.draining ++ [(oldRouter, oldHandler)] }

/-- The bind address `fmt.Sprintf("127.0.0.1:%d", port)`. -/
def bindAddr (port : Int) : String :=
  "127.0.0.1:" ++ formatInt port

/-- The part of a loop body of `Listen` under `if toListen`, up to the creation
of the server: build the wrapper, swap the router of an existing wrapper,
register the wrapper in `routes`. Objects are allocated at `addr + 2` (the
fresh inner router), `addr + 3` (the fresh wrapper), `addr + 4` (the inner
router handed to `ChangeRouter`) and `addr + 5` (the server). -/
def installRoute (s : Supervisor) (addr : Nat) (key : String) (r : MuxRouter)
    (oldHandler : Option ServiceHandler) (port : Int) : Supervisor × Server :=
  let swapped : Supervisor × Nat :=
    match s.routes.get? key with
    | some existingRouter =>
      (ChangeRouter s existingRouter ⟨addr + 4, r, 0⟩ oldHandler, existingRouter)
    | none =>
      ({ s with wrapperRouter := fun p =>
          if p = addr + 3 then some ⟨addr + 2, r, 0⟩ else s.wrapperRouter p }, addr + 3)
  let s1 := { swapped.1 with routes := swapped.1.routes.set key swapped.2 }
  (s1, ⟨addr + 5, swapped.2, bindAddr port⟩)

/-- The end of the loop body over `config.AwsConfigs`: when the key has a
server already, a different bind address is refused with an error log and an
equal one needs nothing; otherwise the new server is registered and its serving
task started. -/
def bindAwsServer (s : Supervisor) (key : String) (srv : Server)
    (handler : Option ServiceHandler) : Supervisor :=
  match s.awsServers.get? key with
  | some existingSrv =>
    if existingSrv.Addr != srv.Addr then
      { s with errors := s.errors ++
        ["Cannot change a bind address on config " ++ key ++ " from " ++ existingSrv.Addr
          ++ " to " ++ srv.Addr] }
    else s
  | none =>
    { s with
      waitGroup := s.waitGroup + 1
      awsServers := s.awsServers.set key srv
      serving := s.serving ++ [(srv, handler)] }

/-- The end of the loop body over `config.GcpConfigs`: as for AWS, after the
HTTP/2 set-up, whose failure skips the rest of the iteration. -/
def bindGcpServer (ext : Externals) (s : Supervisor) (key : String) (srv : Server)
    (handler : Option ServiceHandler) : Supervisor :=
  if ext.http2Fails srv.Addr then
    { s with errors := s.errors ++ ["Could not set up http2"] }
  else
    match s.gcpServers.get? key with
    | some existingSrv =>
      if existingSrv.Addr != srv.Addr then
        { s with errors := s.errors ++
          ["Cannot change a bind address on config " ++ key ++ " from " ++ existingSrv.Addr
            ++ " to " ++ srv.Addr] }
      else s
    | none =>
      { s with
        waitGroup := s.waitGroup + 1
        gcpServers := s.gcpServers.set key srv
        serving := s.serving ++ [(srv, handler)] }

/-- The loop body of `Listen` over `config.AwsConfigs` after the factory has
returned `built`: middlewares, then, when `toListen`, the route and the server. -/
def listenAwsBuilt (ext : Externals) (config : Config) (key : String) (awsConfig : AWSConfig)
    (built : Built) (s : Supervisor) : Supervisor :=
  let oldHandler := (s.awsHandlers.get? key).join
  let used := useMiddlewares (ext.middlewares config) awsConfig.Middleware built.router s.errors
  let s0 := { s with nextAddr := s.nextAddr + 6, errors := used.2 }
  if built.toListen then
    let installed := installRoute s0 s.nextAddr key used.1 oldHandler awsConfig.Port
    bindAwsServer installed.1 key installed.2 built.handler
  else s0

/-- The loop body of `Listen` over `config.GcpConfigs` after the factory has
returned `built`. -/
def listenGcpBuilt (ext : Externals) (config : Config) (key : String) (gcpConfig : AWSConfig)
    (built : Built) (s : Supervisor) : Supervisor :=
  let oldHandler := (s.gcpHandlers.get? key).join
  let used := useMiddlewares (ext.middlewares config) gcpConfig.Middleware built.router s.errors
  let s0 := { s with nextAddr := s.nextAddr + 6, errors := used.2 }
  if built.toListen then
    let installed := installRoute s0 s.nextAddr key used.1 oldHandler gcpConfig.Port
    bindGcpServer ext installed.1 key installed.2 built.handler
  else s0

/-- One iteration of the loop of `Listen` over `config.AwsConfigs`; the second
component is `localAwsHandlers`. `none` is a panic of the factory. -/
def listenAws (ext : Externals) (config : Config) (key : String) (awsConfig : AWSConfig)
    (st : Supervisor × GoMap (Option ServiceHandler)) :
    Option (Supervisor × GoMap (Option ServiceHandler)) :=
  match CreateHandlerAWS ext key awsConfig st.1.nextAddr with
  | none => none
  | some built =>
    some (listenAwsBuilt ext config key awsConfig built st.1, st.2.set key built.handler)

/-- One iteration of the loop of `Listen` over `config.GcpConfigs`; the second
component is `localGcpHandlers`. -/
def listenGcp (ext : Externals) (config : Config) (key : String) (gcpConfig : AWSConfig)
    (st : Supervisor × GoMap (Option ServiceHandler)) :
    Option (Supervisor × GoMap (Option ServiceHandler)) :=
  match CreateHandlerGCP ext key gcpConfig st.1.nextAddr with
  | none => none
  | some built =>
    some (listenGcpBuilt ext config key gcpConfig built st.1, st.2.set key built.handler)

/-- The body of the loop `for key, srv := range awsServers` of `Listen`. -/
def removeAwsStep (config : Config) (s : Supervisor) (entry : String × Server) : Supervisor :=
  if !config.AwsConfigs.contains entry.1 then
    { s with
      closed := s.closed ++ [entry.2]
      awsServers := s.awsServers.delete entry.1
      routes := s.routes.delete entry.1
      awsHandlers := s.awsHandlers.delete entry.1 }
  else s

/-- The body of the loop `for key, srv := range gcpServers` of `Listen`: the
server is closed, and the key is deleted from `awsServers`, `routes` and
`awsHandlers`, as the source has it. -/
def removeGcpStep (config : Config) (s : Supervisor) (entry : String × Server) : Supervisor :=
  if !config.GcpConfigs.contains entry.1 then
    { s with
      closed := s.closed ++ [entry.2]
      awsServers := s.awsServers.delete entry.1
      routes := s.routes.delete entry.1
      awsHandlers := s.awsHandlers.delete entry.1 }
  else s

/-- The loops of `Listen` over the new configuration: all of `GcpConfigs`, then
all of `AwsConfigs`; the result carries `localGcpHandlers` and
`localAwsHandlers`. -/
def listenConfigs (ext : Externals) (config : Config) (s : Supervisor) :
    Option (Supervisor × GoMap (Option ServiceHandler) × GoMap (Option ServiceHandler)) :=
  match config.GcpConfigs.entries.foldlM
      (fun st kv => listenGcp ext config kv.1 kv.2 st) (s, GoMap.empty) with
  | none => none
  | some afterGcp =>
    match config.AwsConfigs.entries.foldlM
        (fun st kv => listenAws ext config kv.1 kv.2 st) (afterGcp.1, GoMap.empty) with
    | none => none
    | some afterAws => some (afterAws.1, afterGcp.2, afterAws.2)

/-- Embedding of `Listen`: one supervisor pass. Each `range` loop visits the
entries of its map in list order; `none` is a panic. -/
def Listen (ext : Externals) (config : Config) (s : Supervisor) : Option Supervisor :=
  match listenConfigs ext config s with
  | none => none
  | some (s2, localGcpHandlers, localAwsHandlers) =>
    let s3 := s2.awsServers.entries.foldl (removeAwsStep config) s2
    let s4 := s3.gcpServers.entries.foldl (removeGcpStep config) s3
    some { s4 with awsHandlers := localAwsHandlers, gcpHandlers := localGcpHandlers }

/-! ## Concrete configurations, for concrete passes -/

/-- Collaborators with an empty middleware registry, no failing client, no
enterprise extension and no plugin. -/
def plainExternals : Externals where
  middlewares _ := []
  pubSubFails _ _ := false
  kmsFails _ := false
  enterpriseRegisters _ _ := false
  plugin _ := PluginOutcome.openError
  http2Fails _ := false

/-- A tenant of the given service type on the given port, with a GCS
destination read from a key file. -/
def tenant (service : String) (port : Int) : AWSConfig where
  ServiceType := service
  Port := port
  Middleware := []
  DestinationAWSConfig := none
  DestinationGCPConfig := some ⟨some "/etc/key.json", none, none, "proj"⟩

/-- The inner router currently installed in the wrapper registered for a key. -/
def innerRouter (s : Supervisor) (key : String) : Option RouterWithCounter :=
  (s.routes.get? key).bind s.wrapperRouter

/-- A configuration with the given AWS and GCP tenants. -/
def mkConfig (aws gcp : List (String × AWSConfig)) : Config where
  AwsConfigs := ⟨aws⟩
  GcpConfigs := ⟨gcp⟩
  PanicOnBindError := false

/-- Whether every factory call of a pass over `config` returns rather than
panics; the factories are run at address 0, their panics do not depend on the
address. -/
def factoriesReturn (ext : Externals) (config : Config) : Bool :=
  config.GcpConfigs.entries.all (fun kv => (CreateHandlerGCP ext kv.1 kv.2 0).isSome) &&
  config.AwsConfigs.entries.all (fun kv => (CreateHandlerAWS ext kv.1 kv.2 0).isSome)

/-- The state after a first pass that binds the S3 tenant `k1` on port 9001. -/
def afterFirstPass : Supervisor :=
  (Listen plainExternals (mkConfig [("k1", tenant "s3" 9001)] []) Supervisor.init).getD
    Supervisor.init

/-- The state after a first pass that binds the GCS tenant `g1` on port 9003. -/
def afterGcpPass : Supervisor :=
  (Listen plainExternals (mkConfig [] [("g1", tenant "gcs" 9003)]) Supervisor.init).getD
    Supervisor.init

/-- A reader whose first `Read` delivers `ab` together with a non-EOF error
(the request context was cancelled) and whose every later `Read` delivers
nothing with the same error. -/
def cancelledReader : Reader where
  read i :=
    if i = 0 then ⟨"ab", some (ReadError.other "context canceled")⟩
    else ⟨"", some (ReadError.other "context canceled")⟩

/-- A reader that delivers `ab` with a non-EOF error, and `io.EOF` on the next
`Read`. -/
def errorThenEofReader : Reader where
  read i :=
    if i = 0 then ⟨"ab", some (ReadError.other "context canceled")⟩
    else ⟨"", some ReadError.EOF⟩

/-- A handler in GCS mode whose objects all exist and are read through the
given reader. -/
def readerHandler (reader : Reader) : Handler where
  GCPClient := some
    { Upload := fun _ _ _ => none
      Attrs := fun _ _ => .ok ⟨2, "", ""⟩
      NewRangeReader := fun _ _ _ _ => .ok reader
      NewReader := fun _ _ => .ok reader }
  S3Client := noS3
  multipartDir := "/tmp/multipart"
  BucketRename b := b
  GCSAttrToHeaders _ hd := hd
  Marshal _ := ""

/-! ## The bucket ACL handler of `handler/aws.go` -/

/-- Embedding of the struct `Grantee`: the two XML attributes are the fields
`XmlNS` (`xmlns:xsi`) and `Xsi` (`xsi:type`). -/
structure Grantee where
  Id : String
  DisplayName : String
  XmlNS : String
  Xsi : String
deriving Repr, DecidableEq

/-- Embedding of the struct `Grant`. -/
structure Grant where
  Grantee : Grantee
  Permission : String
deriving Repr, DecidableEq

/-- Embedding of the struct `AccessControlList`. -/
structure AccessControlList where
  Grants : List Grant
deriving Repr, DecidableEq

/-- Embedding of the struct `AWSACLResponse`, the `AccessControlPolicy` document. -/
structure AWSACLResponse where
  OwnerId : String
  OwnerDisplayName : String
  AccessControlList : AccessControlList
deriving Repr, DecidableEq

/-- The grantee of a backend grant, `s3.Grantee`: `none` is a nil pointer. -/
structure S3Grantee where
  ID : Option String
  DisplayName : Option String
deriving Repr, DecidableEq

/-- A backend grant, `s3.Grant`. -/
structure S3Grant where
  Grantee : Option S3Grantee
  Permission : String
deriving Repr, DecidableEq

/-- The backend owner, `s3.Owner`. -/
structure S3Owner where
  ID : Option String
  DisplayName : Option String
deriving Repr, DecidableEq

/-- The backend ACL result, `s3.GetBucketAclOutput`. -/
structure GetBucketAclOutput where
  Grants : List S3Grant
  Owner : Option S3Owner
deriving Repr, DecidableEq

/-- The handler `S3Handler`: its S3 client, as the result of
`GetBucketAclRequest(bucket).Send()`. -/
structure S3Handler where
  GetBucketAcl : String → Except String GetBucketAclOutput

/-- The constant `xmlHeader` of `handler/aws.go`. -/
def xmlHeader : String := "<?xml version=\"1.0\" encoding=\"UTF-8\"?>"

/-- Embedding of `writeLine`: write the input followed by a newline; a failed
`Write` panics. `writeErr` gives the error of `Write` on given bytes. -/
def writeLine (writeErr : String → Option String) (input : String) (writer : ResponseWriter) :
    Option ResponseWriter :=
  let line := input ++ "\n"
  match writeErr line with
  | some _ => none
  | none => some (writer.Write line)

/-- The body of the loop of `S3ACL` on one backend grant: a nil grantee, ID or
display name is dereferenced, which panics. -/
def convertGrant (grant : S3Grant) : Option Grant :=
  match grant.Grantee with
  | none => none
  | some grantee =>
    match grantee.ID, grantee.DisplayName with
    | some id, some name =>
      some { Grantee := { Id := id, DisplayName := name,
                          XmlNS := "http://www.w3.org/2001/XMLSchema-instance",
                          Xsi := "CanonicalUser" },
             Permission := grant.Permission }
    | _, _ => none

/-- The loop of `S3ACL` over the backend grants, in order. -/
def convertGrants : List S3Grant → Option (List Grant)
  | [] => some []
  | grant :: rest =>
    match convertGrant grant with
    | none => none
    | some g =>
      match convertGrants rest with
      | none => none
      | some gs => some (g :: gs)

/-- Embedding of `S3Handler.S3ACL`: the response written and the document
built; `none` is a panic. `marshal` is `xml.MarshalIndent(s3Resp, "  ", "    ")`. -/
def S3ACL (handler : S3Handler) (marshal : AWSACLResponse → String)
    (writeErr : String → Option String) (writer : ResponseWriter) (request : Request) :
    Option (ResponseWriter × AWSACLResponse) :=
  let bucket := request.var "bucket"
  match handler.GetBucketAcl bucket with
  | .error _ => none
  | .ok resp =>
    match convertGrants resp.Grants with
    | none => none
    | some grants =>
      match resp.Owner with
      | none => none
      | some owner =>
        match owner.ID, owner.DisplayName with
        | some ownerId, some ownerName =>
          let s3Resp : AWSACLResponse :=
            { OwnerId := ownerId, OwnerDisplayName := ownerName,
              AccessControlList := { Grants := grants } }
          let output := marshal s3Resp
          match writeLine writeErr xmlHeader writer with
          | none => none
          | some w1 =>
            match writeLine writeErr output w1 with
            | none => none
            | some w2 => some (w2, s3Resp)
        | _, _ => none

/-- A backend ACL result without nil pointers: the owner and, in order, the
grants `(ID, display name, permission)`. -/
def canonicalAcl (ownerId ownerName : String) (grants : List (String × String × String)) :
    GetBucketAclOutput where
  Grants := grants.map (fun g =>
    { Grantee := some { ID := some g.1, DisplayName := some g.2.1 }, Permission := g.2.2 })
  Owner := some { ID := some ownerId, DisplayName := some ownerName }

/-- The document `S3ACL` is to build for a backend result without nil pointers. -/
def canonicalPolicy (ownerId ownerName : String) (grants : List (String × String × String)) :
    AWSACLResponse where
  OwnerId := ownerId
  OwnerDisplayName := ownerName
  AccessControlList := { Grants := grants.map (fun g =>
    { Grantee := { Id := g.1, DisplayName := g.2.1,
                   XmlNS := "http://www.w3.org/2001/XMLSchema-instance",
                   Xsi := "CanonicalUser" },
      Permission := g.2.2 }) }

/-- An S3 handler whose backend returns the given ACL result for every bucket. -/
def aclHandler (result : GetBucketAclOutput) : S3Handler where
  GetBucketAcl _ := .ok result

/-! ## Requests in flight: the counting router

`RouterWithCounter.ServeHTTP` touches the counter in two atomic additions, one
before and one after the call of the inner mux. Concurrent requests interleave
at these additions, so a router under load is described by the sequence of the
events below. -/

/-- Two's complement wrap-around of a mathematical integer into `int32`. -/
def wrapInt32 (x : Int) : Int :=
  (x + 2 ^ 31) % 2 ^ 32 - 2 ^ 31

/-- Model of `atomic.AddInt32(&router.currentRequests, delta)`. -/
def RouterWithCounter.AddInt32 (router : RouterWithCounter) (delta : Int) : RouterWithCounter :=
  { router with currentRequests := wrapInt32 (router.currentRequests + delta) }

/-- Embedding of `RouterWithCounter.ServeHTTP` for one request served alone:
increment, inner mux, decrement; when the inner mux panics the function is left
before the decrement. -/
def RouterWithCounter.ServeHTTP (router : RouterWithCounter) (muxPanics : Bool) :
    RouterWithCounter :=
  let entered := router.AddInt32 1
  if muxPanics then entered else entered.AddInt32 (-1)

/-- The events of requests on one router: `enter` is the first addition of
`ServeHTTP`, after which the request is in the inner mux; `leave` is the return
of the inner mux followed by the second addition; `abort` is a panic of the
inner mux, which ends `ServeHTTP` without the second addition. -/
inductive ServeEvent where
  | enter
  | leave
  | abort
deriving Repr, DecidableEq

/-- A router under load: the router, the number of requests now inside (past
the first addition and still in the inner mux), and the number of requests that
left by a panic. -/
structure Serving where
  router : RouterWithCounter
  inside : Nat
  aborted : Nat
deriving Repr, DecidableEq

namespace Serving

/-- A router as `Listen` creates it, with no request inside. -/
def start (mux : MuxRouter) (addr : Nat) : Serving :=
  ⟨⟨addr, mux, 0⟩, 0, 0⟩

/-- One event; `none` when a request is to leave and none is inside. -/
def step (s : Serving) : ServeEvent → Option Serving
  | .enter => some { s with router := s.router.AddInt32 1, inside := s.inside + 1 }
  | .leave =>
    if s.inside = 0 then none
    else some { s with router := s.router.AddInt32 (-1), inside := s.inside - 1 }
  | .abort =>
    if s.inside = 0 then none
    else some { s with inside := s.inside - 1, aborted := s.aborted + 1 }

/-- A sequence of events. -/
def run : Serving → List ServeEvent → Option Serving
  | s, [] => some s
  | s, e :: es =>
    match s.step e with
    | none => none
    | some s1 => run s1 es

/-- The largest number, over the points of a run, of requests whose first
addition has not been undone by a second one. -/
def peak : Serving → List ServeEvent → Nat
  | s, [] => s.inside + s.aborted
  | s, e :: es =>
    match s.step e with
    | none => s.inside + s.aborted
    | some s1 => max (s.inside + s.aborted) (peak s1 es)

end Serving

/-! ## Requests in flight: the router wrapper

`RouteWrapper.ServeHTTP` reads the inner router under the mutex and then calls
its `ServeHTTP`; `RouteWrapper.ChangeRouter` replaces the inner router under the
same mutex and starts the drain of the old one. The steps below are these
critical sections and the atomic additions. -/

/-- Where a request stands: `arrived` in `RouteWrapper.ServeHTTP` before the
mutex; `captured r` after it, holding the inner router at address `r`; `inMux r`
after the first addition on that router; `returned r` after the second;
`panicked r` when the inner mux of that router panicked. -/
inductive RequestPoint where
  | arrived
  | captured (router : Nat)
  | inMux (router : Nat)
  | returned (router : Nat)
  | panicked (router : Nat)
deriving Repr, DecidableEq

/-- The inner router a request was delegated to, once it has captured one. -/
def RequestPoint.router? : RequestPoint → Option Nat
  | .arrived => none
  | .captured r => some r
  | .inMux r => some r
  | .returned r => some r
  | .panicked r => some r

/-- One wrapper with its requests: the address of the inner router now
installed, the routers by address, the requests, and the drains started:
`(old inner router, old handler)`. -/
structure Live where
  wrapper : Nat
  routers : Nat → Serving
  requests : List RequestPoint
  draining : List (Nat × Option ServiceHandler)

/-- The atomic steps of the requests and of `ChangeRouter`. -/
inductive Action where
  | arrive
  | capture (i : Nat)
  | enter (i : Nat)
  | leave (i : Nat)
  | abort (i : Nat)
  | changeRouter (newRouter : Nat) (oldHandler : Option ServiceHandler)
deriving Repr, DecidableEq

/-- The request an action belongs to. -/
def Action.request? : Action → Option Nat
  | .arrive => none
  | .capture i => some i
  | .enter i => some i
  | .leave i => some i
  | .abort i => some i
  | .changeRouter _ _ => none

/-- Whether an action is a `ChangeRouter`. -/
def Action.isChange : Action → Bool
  | .changeRouter _ _ => true
  | _ => false

namespace Live

/-- The inner router request `i` was delegated to. -/
def routerOf (s : Live) (i : Nat) : Option Nat :=
  (s.requests.get? i).bind RequestPoint.router?

/-- Apply an event to the router at address `r` and move request `i`. -/
def serve (s : Live) (i r : Nat) (e : ServeEvent) (next : RequestPoint) : Option Live :=
  match (s.routers r).step e with
  | none => none
  | some served =>
    some { s with
      routers := fun a => if a = r then served else s.routers a
      requests := s.requests.set i next }

/-- One atomic step; `none` when the action is not enabled. `capture` is the
critical section of `RouteWrapper.ServeHTTP`, `changeRouter` the critical
section of `RouteWrapper.ChangeRouter` together with the start of the drain. -/
def step (s : Live) : Action → Option Live
  | .arrive => some { s with requests := s.requests ++ [RequestPoint.arrived] }
  | .capture i =>
    match s.requests.get? i with
    | some .arrived => some { s with requests := s.requests.set i (.captured s.wrapper) }
    | _ => none
  | .enter i =>
    match s.requests.get? i with
    | some (.captured r) => s.serve i r .enter (.inMux r)
    | _ => none
  | .leave i =>
    match s.requests.get? i with
    | some (.inMux r) => s.serve i r .leave (.returned r)
    | _ => none
  | .abort i =>
    match s.requests.get? i with
    | some (.inMux r) => s.serve i r .abort (.panicked r)
    | _ => none
  | .changeRouter newRouter oldHandler =>
    some { s with wrapper := newRouter, draining := s.draining ++ [(s.wrapper, oldHandler)] }

/-- A sequence of atomic steps. -/
def run : Live → List Action → Option Live
  | s, [] => some s
  | s, a :: as =>
    match s.step a with
    | none => none
    | some s1 => run s1 as

end Live

/-! ## Requests in flight: the drain -/

/-- What `ShutdownWhenReady` does, in order: a load of the counter with the
value read, the call of `Shutdown` on the handler, a sleep of one second. -/
inductive DrainEvent where
  | load (value : Int)
  | shutdown (handler : ServiceHandler)
  | sleep
deriving Repr, DecidableEq

/-- How far a run of `ShutdownWhenReady` got: still looping, returned, or
panicked on the call of `Shutdown` on a nil handler. -/
inductive DrainEnd where
  | looping
  | returned
  | panicked
deriving Repr, DecidableEq

/-- Embedding of `RouterWithCounter.ShutdownWhenReady`: `load i` is the value
of the counter read in iteration `i`; the first argument bounds the number of
iterations run, the second is the iteration to run next. -/
def ShutdownWhenReady (load : Nat → Int) (handler : Option ServiceHandler) :
    Nat → Nat → List DrainEvent × DrainEnd
  | 0, _ => ([], DrainEnd.looping)
  | fuel + 1, i =>
    if load i ≤ 0 then
      match handler with
      | some h => ([DrainEvent.load (load i), DrainEvent.shutdown h], DrainEnd.returned)
      | none => ([DrainEvent.load (load i)], DrainEnd.panicked)
    else
      let rest := ShutdownWhenReady load handler fuel (i + 1)
      (DrainEvent.load (load i) :: DrainEvent.sleep :: rest.1, rest.2)

/-- The events of the iterations `i, …, i + n - 1` of a drain that finds the
counter positive in each of them. -/
def waitingEvents (load : Nat → Int) (i n : Nat) : List DrainEvent :=
  (List.range' i n).flatMap (fun j => [DrainEvent.load (load j), DrainEvent.sleep])

/-- The first of the iterations `i, …, i + n - 1` whose load is not positive. -/
def firstReady (load : Nat → Int) (i n : Nat) : Option Nat :=
  (List.range' i n).find? (fun j => decide (load j ≤ 0))

/-- The number of calls of `Shutdown` among the events of a drain. -/
def shutdownCalls (events : List DrainEvent) : Nat :=
  events.countP (fun e => match e with
    | DrainEvent.shutdown _ => true
    | _ => false)

/-- A wrapper over the router at address 0, with no request yet. -/
def liveStart : Live where
  wrapper := 0
  routers a := Serving.start ⟨a, "s3", ["loggingMiddleware"]⟩ a
  requests := []
  draining := []

/-- The wrapper over router 0 after one request has arrived and captured the
inner router. -/
def liveBeforeSwap : Live :=
  (liveStart.run [Action.arrive, Action.capture 0]).getD liveStart

/-- After `liveBeforeSwap`: the router is replaced by the one at address 1 while
the first request is still on its way; a second request arrives and captures;
both enter their routers and the first returns. -/
def liveAfterSwap : Live :=
  (liveBeforeSwap.run [Action.changeRouter 1 (some ⟨7, "s3", "k1"⟩), Action.arrive,
    Action.capture 1, Action.enter 0, Action.enter 1, Action.leave 0]).getD liveStart

/-- A tenant of service type `s3` whose GCS destination has no key file, no key
from URL and no raw key: the factory dereferences the nil raw key. -/
def keylessTenant (port : Int) : AWSConfig where
  ServiceType := "s3"
  Port := port
  Middleware := []
  DestinationAWSConfig := none
  DestinationGCPConfig := some ⟨none, none, none, "proj"⟩

/-! # Theorems -/

namespace GoMap
variable {V : Type}
theorem get?_delete_self (m : GoMap V) (k : String) : (m.delete k).get? k = none := by
  simp [get?, delete, List.find?_eq_none]

theorem get?_delete_of_ne (m : GoMap V) {k k1 : String} (h : k1 ≠ k) :
    (m.delete k).get? k1 = m.get? k1 := by
  simp only [get?, delete]
  congr 1
  induction m.entries with
  | nil => rfl
  | cons e es ih =>
    obtain ⟨a, b⟩ := e
    by_cases he : a = k
    · subst he
      have h1 : ¬ (a = k1) := fun x => h x.symm
      simp [List.filter_cons, List.find?_cons, h1, ih]
    · by_cases he1 : a = k1
      · subst he1
        simp [List.filter_cons, he, List.find?_cons]
      · simp [List.filter_cons, he, List.find?_cons, he1, ih]

theorem get?_set_self (m : GoMap V) (k : String) (v : V) : (m.set k v).get? k = some v := by
  have h := get?_delete_self m k
  simp only [get?, Option.map_eq_none'] at h
  simp [get?, set, List.find?_append, h]

theorem get?_set_of_ne (m : GoMap V) {k k1 : String} (v : V) (h : k1 ≠ k) :
    (m.set k v).get? k1 = m.get? k1 := by
  rw [← get?_delete_of_ne m h]
  simp only [get?, set, List.find?_append]
  have : ¬ (k = k1) := fun x => h x.symm
  cases hf : List.find? (fun e => e.1 == k1) (m.delete k).entries <;> simp [this]

theorem contains_eq_isSome (m : GoMap V) (k : String) : m.contains k = (m.get? k).isSome := by
  simp only [contains, get?]
  induction m.entries with
  | nil => rfl
  | cons e es ih =>
    by_cases he : e.1 = k <;> simp [List.find?_cons, he, ih]
end GoMap

/-! ## UploadPart and the multipart manifest -/

theorem status_writeError (w : ResponseWriter) (msg : String) (hw : w.wroteHeader = none) :
    (writeError w msg).status = 404 := by
  simp [writeError, ResponseWriter.Write, ResponseWriter.WriteHeader, ResponseWriter.status, hw]

theorem status_ok (w : ResponseWriter) (hw : w.wroteHeader = none) :
    ((w.WriteHeader 200).Write "").status = 200 := by
  simp [ResponseWriter.Write, ResponseWriter.WriteHeader, ResponseWriter.status, hw]

/-- In GCS mode a call of `UploadPartHandle` that answers 200 leaves in the
manifest exactly the one line of this part, whatever the manifest held before. -/
theorem UploadPartHandle_manifest_after (h : Handler) (gcp : GCPClient) (fs : FileSystem)
    (request : Request) (hg : h.GCPClient = some gcp)
    (hok : (UploadPartHandle h fs ResponseWriter.new request).writer.status = 200) :
    (UploadPartHandle h fs ResponseWriter.new request).fs.files.get?
        (manifestPath h (request.var "uploadId")) =
      some ((UploadPartHandle h fs ResponseWriter.new request).writer.header.Get "ETag" ++ ","
        ++ partKey (request.var "key") (ParseInt (request.var "partNumber")).1 ++ "\n") := by
  revert hok
  simp only [UploadPartHandle, hg, UploadPartParseInput]
  cases hu : gcp.Upload (request.var "bucket")
      (partKey (request.var "key") (ParseInt (request.var "partNumber")).1)
      (PutParseInput request) with
  | some e => simp [status_writeError, ResponseWriter.new]
  | none =>
    simp only [FileSystem.Create]
    by_cases hc : fs.canCreate (manifestPath h (request.var "uploadId")) = true
    · simp only [hc, if_true, FileSystem.WriteString]
      by_cases hw : fs.canWrite (manifestPath h (request.var "uploadId")) = true
      · simp [hw, GoMap.get?_set_self, ResponseWriter.Write, ResponseWriter.WriteHeader,
          ResponseWriter.new]
      · simp [hw, status_writeError, ResponseWriter.new]
    · simp [hc, status_writeError, ResponseWriter.new]

theorem UploadPartHandle_manifest_after_witness :
    (numsHandler).GCPClient = some (memGCP [("b1", "nums", "0123456789")]) ∧
    (UploadPartHandle numsHandler (memFS [("/tmp/multipart/U", "e1,big-part-1\n")])
        ResponseWriter.new (uploadPartRequest "2")).fs.files.get?
        (manifestPath numsHandler ((uploadPartRequest "2").var "uploadId")) =
      some ((UploadPartHandle numsHandler (memFS [("/tmp/multipart/U", "e1,big-part-1\n")])
        ResponseWriter.new (uploadPartRequest "2")).writer.header.Get "ETag" ++ ","
        ++ partKey ((uploadPartRequest "2").var "key")
            (ParseInt ((uploadPartRequest "2").var "partNumber")).1 ++ "\n") :=
  ⟨rfl, UploadPartHandle_manifest_after numsHandler _ _ _ rfl (by decide)⟩

set_option maxRecDepth 100000 in
/-- C1, at the failing input: upload `U` was created, part 1 was uploaded with
ETag `e1` and answered 200, so the manifest holds the line of part 1; the
upload of part 2 with ETag `e2` also answers 200, and afterwards the manifest
holds the line of part 2 alone, not the line of part 1 followed by it. The
destination is given per call: it reports the ETag `e1` for part 1 and `e2`
for part 2. -/
theorem UploadPartHandle_second_part_overwrites :
    (UploadPartHandle (memHandler [] "e1") (memFS [("/tmp/multipart/U", "")])
        ResponseWriter.new (uploadPartRequest "1")).writer.status = 200 ∧
    (UploadPartHandle (memHandler [] "e1") (memFS [("/tmp/multipart/U", "")])
        ResponseWriter.new (uploadPartRequest "1")).fs.files.get? "/tmp/multipart/U"
      = some "e1,big-part-1\n" ∧
    (UploadPartHandle (memHandler [] "e2")
        (UploadPartHandle (memHandler [] "e1") (memFS [("/tmp/multipart/U", "")])
          ResponseWriter.new (uploadPartRequest "1")).fs
        ResponseWriter.new (uploadPartRequest "2")).writer.status = 200 ∧
    (UploadPartHandle (memHandler [] "e2")
        (UploadPartHandle (memHandler [] "e1") (memFS [("/tmp/multipart/U", "")])
          ResponseWriter.new (uploadPartRequest "1")).fs
        ResponseWriter.new (uploadPartRequest "2")).fs.files.get? "/tmp/multipart/U"
      = some "e2,big-part-2\n" ∧
    "e2,big-part-2\n" ≠ "e1,big-part-1\n" ++ "e2,big-part-2\n" := by
  refine ⟨by decide, by decide, by decide, by decide, by decide⟩

set_option maxRecDepth 100000 in
/-- C2, at the failing input: no manifest exists for upload id `U`, yet
`UploadPartHandle` answers 200 and creates the manifest. -/
theorem UploadPartHandle_creates_missing_manifest :
    (memFS []).files.get? "/tmp/multipart/U" = none ∧
    (UploadPartHandle (memHandler [] "e1") (memFS []) ResponseWriter.new
        (uploadPartRequest "1")).writer.status = 200 ∧
    (UploadPartHandle (memHandler [] "e1") (memFS []) ResponseWriter.new
        (uploadPartRequest "1")).fs.files.get? "/tmp/multipart/U" = some "e1,big-part-1\n" := by
  refine ⟨by decide, by decide, by decide⟩

/-! ## PUT -/

/-- C5, at the failing input: the GCS upload of this `PUT` returns an error, and
the response status is 200, not a 5xx status nor any other error status; on
the same failing upload the sibling `UploadPartHandle` answers 404. -/
theorem PutHandle_upload_error_answers_200 :
    (putUpload { memHandler [] "e" with GCPClient := some (failingGCP "upstream write failed") }
        (PutParseInput (mkRequest [("bucket", "b1"), ("key", "hello")] [] "abc"))).1
      = some "upstream write failed" ∧
    (PutHandle { memHandler [] "e" with GCPClient := some (failingGCP "upstream write failed") }
        (memFS []) ResponseWriter.new
        (mkRequest [("bucket", "b1"), ("key", "hello")] [] "abc")).writer.status = 200 ∧
    ¬ (500 ≤ (PutHandle
        { memHandler [] "e" with GCPClient := some (failingGCP "upstream write failed") }
        (memFS []) ResponseWriter.new
        (mkRequest [("bucket", "b1"), ("key", "hello")] [] "abc")).writer.status) ∧
    (UploadPartHandle
        { memHandler [] "e" with GCPClient := some (failingGCP "upstream write failed") }
        (memFS []) ResponseWriter.new (uploadPartRequest "1")).writer.status = 404 := by
  refine ⟨by decide, by decide, by decide, by decide⟩

/-- `PutHandle` sends status 200 and an empty body whatever the upload returns. -/
theorem PutHandle_always_200 (h : Handler) (fs : FileSystem) (request : Request) :
    (PutHandle h fs ResponseWriter.new request).writer.status = 200 ∧
    (PutHandle h fs ResponseWriter.new request).writer.body = "" := by
  simp [PutHandle, ResponseWriter.Write, ResponseWriter.WriteHeader, ResponseWriter.status,
    ResponseWriter.new]

theorem Header.Get_of_absent (h : Header) (key : String)
    (habs : h.fields.get? (CanonicalMIMEHeaderKey key) = none) : h.Get key = "" := by
  simp [Header.Get, habs]

/-- C6: `PutParseInput` makes the upload body the chunked decoder over the
request body, with `ChunkNextPosition = -1`, exactly when the header
`x-amz-content-sha256` is `STREAMING-AWS4-HMAC-SHA256-PAYLOAD`; for every other
value the body is the request body itself, and so it is when the header field
is removed from the request. -/
theorem PutParseInput_body (r : Request) :
    ((PutParseInput r).Body = UploadBody.chunked { Reader := r.body, ChunkNextPosition := -1 } ↔
      r.header.Get "x-amz-content-sha256" = "STREAMING-AWS4-HMAC-SHA256-PAYLOAD") ∧
    ((PutParseInput r).Body = UploadBody.raw r.body ↔
      r.header.Get "x-amz-content-sha256" ≠ "STREAMING-AWS4-HMAC-SHA256-PAYLOAD") ∧
    (PutParseInput
      { r with header := ⟨r.header.fields.delete (CanonicalMIMEHeaderKey "x-amz-content-sha256")⟩ }).Body
      = UploadBody.raw r.body := by
  refine ⟨?_, ?_, ?_⟩
  · by_cases hh : r.header.Get "x-amz-content-sha256" = "STREAMING-AWS4-HMAC-SHA256-PAYLOAD"
    · simp [PutParseInput, hh]
    · simp [PutParseInput, hh]
  · by_cases hh : r.header.Get "x-amz-content-sha256" = "STREAMING-AWS4-HMAC-SHA256-PAYLOAD"
    · simp [PutParseInput, hh]
    · simp [PutParseInput, hh]
  · have habs : (⟨r.header.fields.delete (CanonicalMIMEHeaderKey "x-amz-content-sha256")⟩ :
        Header).Get "x-amz-content-sha256" = "" :=
      Header.Get_of_absent _ _ (GoMap.get?_delete_self _ _)
    have hne : ("" == "STREAMING-AWS4-HMAC-SHA256-PAYLOAD") = false := by decide
    simp [PutParseInput, habs, hne]

/-! ## CreateMultipartUpload -/

/-- C7: in GCS mode, when the manifest file can be created `MultiPartHandle`
leaves an empty manifest at `<multipart_db_directory>/<id>` for the generated
id, changes no other file, and returns (and writes, after the XML header) a
result with that id as `UploadId` and the bucket and key of the request, with
status 200; when the file cannot be created the status is 404, no result and so
no `UploadId` is returned, and the file system is as before. -/
theorem MultiPartHandle_gcs (h : Handler) (gcp : GCPClient) (uuid : String) (fs : FileSystem)
    (request : Request) (hg : h.GCPClient = some gcp) :
    if fs.canCreate (manifestPath h uuid) = true then
      (MultiPartHandle h uuid fs ResponseWriter.new request).1.fs.files.get?
          (manifestPath h uuid) = some "" ∧
      (∀ p, p ≠ manifestPath h uuid →
        (MultiPartHandle h uuid fs ResponseWriter.new request).1.fs.files.get? p
          = fs.files.get? p) ∧
      (MultiPartHandle h uuid fs ResponseWriter.new request).2 =
        some { Key := request.var "key", Bucket := request.var "bucket", UploadId := some uuid } ∧
      (MultiPartHandle h uuid fs ResponseWriter.new request).1.writer.status = 200 ∧
      (MultiPartHandle h uuid fs ResponseWriter.new request).1.writer.body =
        XmlHeader ++ h.Marshal
          { Key := request.var "key", Bucket := request.var "bucket", UploadId := some uuid }
    else
      (MultiPartHandle h uuid fs ResponseWriter.new request).1.writer.status = 404 ∧
      (MultiPartHandle h uuid fs ResponseWriter.new request).1.writer.body = "<nil>" ∧
      (MultiPartHandle h uuid fs ResponseWriter.new request).2 = none ∧
      (MultiPartHandle h uuid fs ResponseWriter.new request).1.fs.files = fs.files := by
  by_cases hc : fs.canCreate (manifestPath h uuid) = true
  · simp only [hc, if_true]
    simp only [MultiPartHandle, hg, FileSystem.Create, hc, if_true, MultiPartParseInput]
    refine ⟨GoMap.get?_set_self _ _ _, fun p hp => GoMap.get?_set_of_ne _ _ hp, trivial, ?_, ?_⟩
    · simp [ResponseWriter.Write, ResponseWriter.WriteHeader, ResponseWriter.status,
        ResponseWriter.new]
    · simp [ResponseWriter.Write, ResponseWriter.WriteHeader, ResponseWriter.new]
  · simp only [hc]
    simp [MultiPartHandle, hg, FileSystem.Create, hc, writeError, ResponseWriter.Write,
      ResponseWriter.WriteHeader, ResponseWriter.status, ResponseWriter.new]

set_option maxRecDepth 100000 in
theorem MultiPartHandle_gcs_witness :
    (memHandler [] "e").GCPClient = some (memGCP []) ∧
    (MultiPartHandle (memHandler [] "e") "3f2a" (memFS []) ResponseWriter.new
      (uploadPartRequest "")).1.fs.files.get? "/tmp/multipart/3f2a" = some "" ∧
    (MultiPartHandle (memHandler [] "e") "3f2a" (memFS []) ResponseWriter.new
      (uploadPartRequest "")).2 = some { Key := "big", Bucket := "b1", UploadId := some "3f2a" } := by
  have hw := MultiPartHandle_gcs (memHandler [] "e") (memGCP []) "3f2a" (memFS [])
    (uploadPartRequest "") rfl
  rw [if_pos (by decide)] at hw
  exact ⟨rfl, hw.1, hw.2.2.1⟩

/-! ## Decimal text and `ParseInt` -/

theorem wrapInt64_of_range (x : Int) (hlo : -(2 ^ 63) ≤ x) (hhi : x < 2 ^ 63) :
    wrapInt64 x = x := by
  unfold wrapInt64
  omega

theorem wrapInt64_sub_wrap (x y : Int) : wrapInt64 (wrapInt64 x - y) = wrapInt64 (x - y) := by
  unfold wrapInt64
  omega

theorem digitVal_digitChar (k : Nat) (hk : k < 10) : digitVal (Nat.digitChar k) = some k := by
  interval_cases k <;> rfl

theorem le_digitsValue (cs : List Char) (acc : Nat) : acc ≤ digitsValue acc cs := by
  induction cs generalizing acc with
  | nil => simp [digitsValue]
  | cons c cs ih =>
    have h := ih (acc * 10 + (digitVal c).getD 0)
    simp only [digitsValue, List.foldl_cons] at h ⊢
    omega

theorem parseUintLoop_digits (cs : List Char) (acc : Nat)
    (hd : ∀ c ∈ cs, (digitVal c).isSome = true) (hv : digitsValue acc cs < 2 ^ 64) :
    parseUintLoop acc cs = (digitsValue acc cs, none) := by
  induction cs generalizing acc with
  | nil => simp [parseUintLoop, digitsValue]
  | cons c cs ih =>
    obtain ⟨d, hdc⟩ := Option.isSome_iff_exists.mp (hd c (List.mem_cons_self _ _))
    have hstep : digitsValue acc (c :: cs) = digitsValue (acc * 10 + d) cs := by
      simp [digitsValue, hdc]
    have hle := le_digitsValue cs (acc * 10 + d)
    rw [hstep] at hv ⊢
    have h1 : ¬ (acc ≥ maxUint64 / 10 + 1) := by
      simp only [maxUint64]
      omega
    have h2 : (acc * 10 + d) % 2 ^ 64 = acc * 10 + d := Nat.mod_eq_of_lt (by omega)
    have h3 : ¬ (acc * 10 + d < acc * 10 ∨ acc * 10 + d > maxUint64) := by
      simp only [maxUint64]
      omega
    simp only [parseUintLoop, hdc, h1, if_false, h2, h3]
    exact ih _ (fun x hx => hd x (List.mem_cons_of_mem _ hx)) hv

theorem toDigitsCore_append (f n : Nat) (ds : List Char) :
    Nat.toDigitsCore 10 f n ds = Nat.toDigitsCore 10 f n [] ++ ds := by
  induction f generalizing n ds with
  | zero => simp [Nat.toDigitsCore]
  | succ f ih =>
    simp only [Nat.toDigitsCore]
    by_cases h0 : n / 10 = 0
    · simp [h0]
    · simp only [h0, if_false]
      rw [ih (n / 10) (Nat.digitChar (n % 10) :: ds), ih (n / 10) [Nat.digitChar (n % 10)]]
      simp

theorem toDigitsCore_succ (f n : Nat) :
    Nat.toDigitsCore 10 (f + 1) n [] =
      (if n / 10 = 0 then [] else Nat.toDigitsCore 10 f (n / 10) []) ++ [Nat.digitChar (n % 10)] := by
  simp only [Nat.toDigitsCore]
  by_cases h0 : n / 10 = 0
  · simp [h0]
  · simp only [h0, if_false]
    exact toDigitsCore_append f (n / 10) _

theorem toDigitsCore_isDigit (f n : Nat) :
    ∀ c ∈ Nat.toDigitsCore 10 f n [], (digitVal c).isSome = true := by
  induction f generalizing n with
  | zero => simp [Nat.toDigitsCore]
  | succ f ih =>
    intro c hc
    rw [toDigitsCore_succ] at hc
    rcases List.mem_append.mp hc with h | h
    · by_cases h0 : n / 10 = 0
      · simp [h0] at h
      · simp only [h0, if_false] at h
        exact ih _ c h
    · rw [List.mem_singleton] at h
      rw [h, digitVal_digitChar _ (Nat.mod_lt _ (by decide))]
      rfl

theorem digitsValue_append (acc : Nat) (xs ys : List Char) :
    digitsValue acc (xs ++ ys) = digitsValue (digitsValue acc xs) ys := by
  simp [digitsValue, List.foldl_append]

theorem digitsValue_toDigitsCore (f n : Nat) (hf : n < f) :
    digitsValue 0 (Nat.toDigitsCore 10 f n []) = n := by
  induction f generalizing n with
  | zero => omega
  | succ f ih =>
    rw [toDigitsCore_succ, digitsValue_append]
    have hd := digitVal_digitChar (n % 10) (Nat.mod_lt _ (by decide))
    by_cases h0 : n / 10 = 0
    · simp only [h0, if_true]
      simp only [digitsValue, List.foldl_cons, List.foldl_nil, hd, Option.getD_some]
      omega
    · simp only [h0, if_false]
      rw [ih (n / 10) (by omega)]
      simp only [digitsValue, List.foldl_cons, List.foldl_nil, hd, Option.getD_some]
      omega

theorem toString_data (a : Nat) : (toString a).data = Nat.toDigitsCore 10 (a + 1) a [] := rfl

theorem toString_data_ne_nil (a : Nat) : (toString a).data ≠ [] := by
  rw [toString_data, toDigitsCore_succ]
  simp

theorem ParseUint_toString (a : Nat) (ha : a < 2 ^ 64) :
    ParseUint (toString a).data = (a, none) := by
  have hne := toString_data_ne_nil a
  have hloop : ParseUint (toString a).data = parseUintLoop 0 (toString a).data := by
    cases hs : (toString a).data with
    | nil => exact absurd hs hne
    | cons c cs => rfl
  have hval : digitsValue 0 (toString a).data = a := by
    rw [toString_data]
    exact digitsValue_toDigitsCore _ _ (by omega)
  rw [hloop, parseUintLoop_digits _ _ (by rw [toString_data]; exact toDigitsCore_isDigit _ _)
    (by rw [hval]; exact ha), hval]

theorem digit_ne_sign (c : Char) (hc : (digitVal c).isSome = true) : c ≠ '+' ∧ c ≠ '-' ∧ c ≠ '=' := by
  refine ⟨?_, ?_, ?_⟩ <;> (intro h; rw [h] at hc; exact absurd hc (by decide))

theorem ParseIntChars_toString (a : Nat) (ha : a < 2 ^ 63) :
    ParseIntChars (toString a).data = ((a : Int), none) := by
  have hne := toString_data_ne_nil a
  have hu := ParseUint_toString a (by omega)
  have hdig : ∀ c ∈ (toString a).data, (digitVal c).isSome = true := by
    rw [toString_data]; exact toDigitsCore_isDigit _ _
  cases hs : (toString a).data with
  | nil => exact absurd hs hne
  | cons c cs =>
    rw [hs] at hu hdig
    obtain ⟨hp, hm, _⟩ := digit_ne_sign c (hdig c (List.mem_cons_self _ _))
    have hw : wrapInt64 (a : Int) = a := wrapInt64_of_range _ (by omega) (by omega)
    have hlt : ¬ (a ≥ 2 ^ 63) := by omega
    simp [ParseIntChars, hp, hm, hu, hw]
    omega

theorem splitFirst_append (sep : Char) (xs ys : List Char) (hx : sep ∉ xs) :
    splitFirst sep (xs ++ sep :: ys) = some (xs, ys) := by
  induction xs with
  | nil => simp [splitFirst]
  | cons x xs ih =>
    have hne : x ≠ sep := fun h => hx (by simp [h])
    have hrest : sep ∉ xs := fun h => hx (List.mem_cons_of_mem _ h)
    simp [splitFirst, hne, ih hrest]

theorem sep_not_mem_toString (a : Nat) : '-' ∉ (toString a).data ∧ '=' ∉ (toString a).data := by
  have hdig : ∀ c ∈ (toString a).data, (digitVal c).isSome = true := by
    rw [toString_data]; exact toDigitsCore_isDigit _ _
  exact ⟨fun h => (digit_ne_sign _ (hdig _ h)).2.1 rfl, fun h => (digit_ne_sign _ (hdig _ h)).2.2 rfl⟩

/-- The range step on a header `bytes=A-B` whose `A` has no hyphen. -/
theorem parseRange_of_data (s : String) (A B : List Char)
    (hs : s.data = 'b' :: 'y' :: 't' :: 'e' :: 's' :: '=' :: (A ++ '-' :: B)) (hA : '-' ∉ A) :
    parseRange s = some ((ParseIntChars A).1,
      wrapInt64 (wrapInt64 ((ParseIntChars B).1 + 1) - (ParseIntChars A).1)) := by
  have hsplit := splitFirst_append '-' A B hA
  have heq : splitFirst '=' ('b' :: 'y' :: 't' :: 'e' :: 's' :: '=' :: (A ++ '-' :: B)) =
      some (['b', 'y', 't', 'e', 's'], A ++ '-' :: B) := by
    simp [splitFirst]
  simp [parseRange, hs, SplitN2, heq, hsplit]

/-- The range step on `bytes=a-b` with both bounds in `int64`: offset `a` and
length `b + 1 - a` computed in `int64`. -/
theorem parseRange_closed (a b : Nat) (ha : a < 2 ^ 63) (hb : b < 2 ^ 63) :
    parseRange ("bytes=" ++ toString a ++ "-" ++ toString b) =
      some ((a : Int), wrapInt64 ((b : Int) + 1 - a)) := by
  rw [parseRange_of_data _ (toString a).data (toString b).data
    (by simp only [String.data_append, List.append_assoc, List.cons_append, List.nil_append]) (sep_not_mem_toString a).1,
    ParseIntChars_toString a ha, ParseIntChars_toString b hb, wrapInt64_sub_wrap]

/-- The range step on `bytes=a-`: the empty upper bound parses as `0`, so the
length is `1 - a`. -/
theorem parseRange_open (a : Nat) (ha : a < 2 ^ 63) :
    parseRange ("bytes=" ++ toString a ++ "-") = some ((a : Int), 1 - (a : Int)) := by
  rw [parseRange_of_data _ (toString a).data []
    (by simp only [String.data_append, List.append_assoc, List.cons_append, List.nil_append]) (sep_not_mem_toString a).1,
    ParseIntChars_toString a ha, wrapInt64_sub_wrap]
  have hw : wrapInt64 (0 + 1 - (a : Int)) = 1 - (a : Int) := by
    rw [wrapInt64_of_range _ (by omega) (by omega)]; omega
  simp only [ParseIntChars, hw]

/-! ## GET with a `Range` header -/

theorem Write_keeps_200 (w : ResponseWriter) (b : String)
    (hw : w.wroteHeader = none ∨ w.wroteHeader = some 200) :
    (w.Write b).wroteHeader = some 200 := by
  rcases hw with h | h <;> simp [ResponseWriter.Write, ResponseWriter.WriteHeader, h]

/-- The copy loop ends at the first `io.EOF`: when the `n`-th `Read` is the
first to return `io.EOF`, `k + 1` iterations starting at read `n - k` finish the
loop after reads `n - k, …, n`, and no status other than 200 is sent. -/
theorem copyLoop_reaches_eof (reader : Reader) (n : Nat)
    (heof : (reader.read n).err = some ReadError.EOF)
    (hbefore : ∀ i < n, (reader.read i).err ≠ some ReadError.EOF) :
    ∀ (k i : Nat) (w : ResponseWriter) (trace : List Event), i + k = n →
      (w.wroteHeader = none ∨ w.wroteHeader = some 200) →
      ∃ w1, copyLoop reader (k + 1) i w trace
          = some (w1, trace ++ (List.range' i (k + 1)).map Event.read) ∧
        (w1.wroteHeader = none ∨ w1.wroteHeader = some 200) := by
  intro k
  induction k with
  | zero =>
    intro i w trace hi hw
    have hin : i = n := by omega
    subst hin
    refine ⟨if (reader.read i).data.length > 0 then w.Write (reader.read i).data else w, ?_, ?_⟩
    · simp [copyLoop, heof, List.range']
    · by_cases hl : (reader.read i).data.length > 0
      · simp only [hl, if_true]
        exact Or.inr (Write_keeps_200 _ _ hw)
      · simp only [hl, if_false]
        exact hw
  | succ k ih =>
    intro i w trace hi hw
    have hne := hbefore i (by omega)
    have hw1 : (if (reader.read i).data.length > 0 then w.Write (reader.read i).data else w).wroteHeader
          = none ∨
        (if (reader.read i).data.length > 0 then w.Write (reader.read i).data else w).wroteHeader
          = some 200 := by
      by_cases hl : (reader.read i).data.length > 0
      · simp only [hl, if_true]
        exact Or.inr (Write_keeps_200 _ _ hw)
      · simp only [hl, if_false]
        exact hw
    obtain ⟨w1, hrun, hst⟩ := ih (i + 1) _ (trace ++ [Event.read i]) (by omega) hw1
    refine ⟨w1, ?_, hst⟩
    rw [copyLoop]
    simp only [hne, if_false]
    rw [hrun]
    simp [List.range'_succ]

theorem range_header_ne_empty (a b : Nat) :
    ("bytes=" ++ toString a ++ "-" ++ toString b != "") = true := by
  have h : ("bytes=" ++ toString a ++ "-" ++ toString b) ≠ "" := by
    intro h
    have h2 := congrArg String.length h
    simp only [String.length_append] at h2
    have h3 : "bytes=".length = 6 := rfl
    have h4 : "".length = 0 := rfl
    omega
  simpa using h

/-- C3, as amended: in GCS mode, for a `Range` header `bytes=a-b` with decimal
`a ≤ b ≤ 2^63 - 1` and `b + 1 - a ≤ 2^63 - 1`, when the attributes of the object
can be read, the ranged reader opens and its `n`-th `Read` is the first to
return `io.EOF`, `GetHandle` returns after `n + 1` reads, having opened exactly
the ranged reader at offset `a` with length `b + 1 - a`, and the response
status is 200, not 206. -/
theorem GetHandle_range_200 (h : Handler) (gcp : GCPClient) (fs : FileSystem)
    (request : Request) (attrs : ObjectAttrs) (reader : Reader) (a b n : Nat)
    (hg : h.GCPClient = some gcp)
    (hrange : request.header.Get "Range" = "bytes=" ++ toString a ++ "-" ++ toString b)
    (hab : a ≤ b) (hb : b < 2 ^ 63) (hlen : b + 1 - a < 2 ^ 63)
    (hattrs : gcp.Attrs (h.BucketRename (request.var "bucket")) (request.var "key") = .ok attrs)
    (hopen : gcp.NewRangeReader (h.BucketRename (request.var "bucket")) (request.var "key")
      (a : Int) ((b : Int) + 1 - (a : Int)) = .ok reader)
    (heof : (reader.read n).err = some ReadError.EOF)
    (hbefore : ∀ i < n, (reader.read i).err ≠ some ReadError.EOF) :
    ∃ out, GetHandle (n + 1) h fs ResponseWriter.new request = Run.done out ∧
      out.writer.status = 200 ∧ out.writer.status ≠ 206 ∧
      out.trace =
        [Event.gcpAttrs (h.BucketRename (request.var "bucket")) (request.var "key"),
         Event.gcpRangeReader (h.BucketRename (request.var "bucket")) (request.var "key")
           (a : Int) ((b : Int) + 1 - (a : Int))]
        ++ (List.range' 0 (n + 1)).map Event.read ++ [Event.readerClose] := by
  have hparse := parseRange_closed a b (by omega) hb
  rw [wrapInt64_of_range _ (by omega) (by omega)] at hparse
  obtain ⟨w1, hrun, hst⟩ := copyLoop_reaches_eof reader n heof hbefore n 0
    { ResponseWriter.new with
      header := h.GCSAttrToHeaders (some attrs) ResponseWriter.new.header }
    [Event.gcpAttrs (h.BucketRename (request.var "bucket")) (request.var "key"),
     Event.gcpRangeReader (h.BucketRename (request.var "bucket")) (request.var "key")
       (a : Int) ((b : Int) + 1 - (a : Int))]
    (by omega) (Or.inl rfl)
  have hstatus : w1.status = 200 := by
    rcases hst with h0 | h0 <;> simp [ResponseWriter.status, h0]
  refine ⟨⟨w1, fs, _⟩, ?_, hstatus, by rw [hstatus]; decide, rfl⟩
  simp only [GetHandle, hg, hrange, range_header_ne_empty, if_true, GetParseInput, hattrs,
    hparse, Option.map_some', hopen]
  simp only [List.singleton_append, hrun]

set_option maxRecDepth 100000 in
theorem GetHandle_range_200_witness :
    (∃ out, GetHandle (1 + 1) numsHandler (memFS []) ResponseWriter.new
        (rangeRequest "bytes=2-5") = Run.done out ∧
      out.writer.status = 200 ∧ out.writer.status ≠ 206 ∧
      out.trace =
        [Event.gcpAttrs (numsHandler.BucketRename ((rangeRequest "bytes=2-5").var "bucket"))
           ((rangeRequest "bytes=2-5").var "key"),
         Event.gcpRangeReader (numsHandler.BucketRename ((rangeRequest "bytes=2-5").var "bucket"))
           ((rangeRequest "bytes=2-5").var "key") ((2 : Nat) : Int) (((5 : Nat) : Int) + 1 - ((2 : Nat) : Int))]
        ++ (List.range' 0 (1 + 1)).map Event.read ++ [Event.readerClose]) ∧
    (GetHandle 2 numsHandler (memFS []) ResponseWriter.new
        (rangeRequest "bytes=2-5")).result.map (fun out => out.writer.body) = some "2345" :=
  ⟨GetHandle_range_200 numsHandler (memGCP [("b1", "nums", "0123456789")]) (memFS [])
      (rangeRequest "bytes=2-5") ⟨10, "", ""⟩ (memReader "0123456789" 2 4) 2 5 1
      rfl (by decide) (by decide) (by decide) (by decide) rfl rfl (by decide)
      (by intro i hi; interval_cases i; decide),
    by decide⟩

set_option maxRecDepth 100000 in
/-- C3, counterexample: for `Range: bytes=0-9223372036854775807`, where
`0 ≤ a ≤ b`, the reader is opened with length `-9223372036854775808`, which is
not `b + 1 - a`. -/
theorem GetHandle_range_length_overflow :
    (GetHandle 2 numsHandler (memFS []) ResponseWriter.new
        (rangeRequest "bytes=0-9223372036854775807")).result.map (fun out => out.trace) =
      some [Event.gcpAttrs "b1" "nums",
        Event.gcpRangeReader "b1" "nums" 0 (-9223372036854775808),
        Event.read 0, Event.read 1, Event.readerClose] ∧
    (-9223372036854775808 : Int) ≠ 9223372036854775807 + 1 - 0 := by
  refine ⟨by decide, by decide⟩

set_option maxRecDepth 100000 in
/-- C4, at the failing input: for `Range: bytes=0-` the reader is opened at
offset 0 with length 1, not with a negative length, and of the object
`0123456789` only the first byte is returned, not all ten. -/
theorem GetHandle_open_ended_from_zero :
    (GetHandle 2 numsHandler (memFS []) ResponseWriter.new
        (rangeRequest "bytes=0-")).result.map (fun out => (out.trace, out.writer.body)) =
      some ([Event.gcpAttrs "b1" "nums", Event.gcpRangeReader "b1" "nums" 0 1,
        Event.read 0, Event.read 1, Event.readerClose], "0") ∧
    ¬ ((1 : Int) < 0) ∧ "0" ≠ "0123456789" := by
  refine ⟨by decide, by decide, by decide⟩

/-! ## The listener supervisor: frame lemmas -/

theorem foldlM_invariant {α β : Type} (f : β → α → Option β) (Inv : β → Prop) (l : List α)
    (hstep : ∀ x ∈ l, ∀ st st1, f st x = some st1 → Inv st → Inv st1) :
    ∀ st st1, l.foldlM f st = some st1 → Inv st → Inv st1 := by
  induction l with
  | nil =>
    intro st st1 h hi
    simp only [List.foldlM, pure, Option.some.injEq] at h
    exact h ▸ hi
  | cons x xs ih =>
    intro st st1 h hi
    simp only [List.foldlM_cons] at h
    cases hx : f st x with
    | none => rw [hx] at h; simp at h
    | some st2 =>
      rw [hx] at h
      exact ih (fun y hy => hstep y (List.mem_cons_of_mem _ hy)) st2 st1 h
        (hstep x (List.mem_cons_self _ _) st st2 hx hi)

theorem foldl_invariant {α β : Type} (f : β → α → β) (Inv : β → Prop) (l : List α)
    (hstep : ∀ x ∈ l, ∀ st, Inv st → Inv (f st x)) :
    ∀ st, Inv st → Inv (l.foldl f st) := by
  induction l with
  | nil => intro st hi; exact hi
  | cons x xs ih =>
    intro st hi
    exact ih (fun y hy => hstep y (List.mem_cons_of_mem _ hy)) _
      (hstep x (List.mem_cons_self _ _) st hi)

namespace GoMap
variable {V : Type}

theorem get?_eq_none_iff (m : GoMap V) (k : String) :
    m.get? k = none ↔ ∀ e ∈ m.entries, e.1 ≠ k := by
  simp [get?, List.find?_eq_none]

theorem contains_eq_false_iff (m : GoMap V) (k : String) :
    m.contains k = false ↔ m.get? k = none := by
  rw [contains_eq_isSome]
  cases m.get? k <;> simp

theorem mem_entries_of_get? (m : GoMap V) (k : String) (v : V) (h : m.get? k = some v) :
    (k, v) ∈ m.entries := by
  simp only [get?, Option.map_eq_some'] at h
  obtain ⟨e, he, hv⟩ := h
  have hm := List.mem_of_find?_eq_some he
  have hk := List.find?_some he
  simp only [beq_iff_eq] at hk
  obtain ⟨a, b⟩ := e
  simp only at hk hv
  subst hk; subst hv
  exact hm

theorem ne_of_mem_of_not_contains (m : GoMap V) (k : String) (e : String × V)
    (he : e ∈ m.entries) (hk : m.contains k = false) : e.1 ≠ k :=
  (get?_eq_none_iff m k).mp ((contains_eq_false_iff m k).mp hk) e he

theorem get?_delete_eq_none (m : GoMap V) (k k1 : String) (h : m.get? k = none) :
    (m.delete k1).get? k = none := by
  by_cases hk : k = k1
  · subst hk; exact get?_delete_self m k
  · rw [get?_delete_of_ne m hk]; exact h

end GoMap

theorem installRoute_frame (s : Supervisor) (addr : Nat) (key : String) (r : MuxRouter)
    (oldHandler : Option ServiceHandler) (port : Int) :
    (installRoute s addr key r oldHandler port).1.awsServers = s.awsServers ∧
    (installRoute s addr key r oldHandler port).1.gcpServers = s.gcpServers ∧
    (installRoute s addr key r oldHandler port).1.closed = s.closed := by
  unfold installRoute
  cases s.routes.get? key <;> simp [ChangeRouter]

theorem installRoute_routes (s : Supervisor) (addr : Nat) (key : String) (r : MuxRouter)
    (oldHandler : Option ServiceHandler) (port : Int) (k : String) (w : Nat)
    (h : s.routes.get? k = some w) :
    (installRoute s addr key r oldHandler port).1.routes.get? k = some w := by
  unfold installRoute
  by_cases hk : k = key
  · subst hk
    simp [h, ChangeRouter, GoMap.get?_set_self]
  · cases hr : s.routes.get? key <;> simp [ChangeRouter, GoMap.get?_set_of_ne _ _ hk, h]

theorem bindAwsServer_frame (s : Supervisor) (key : String) (srv : Server)
    (handler : Option ServiceHandler) :
    (bindAwsServer s key srv handler).gcpServers = s.gcpServers ∧
    (bindAwsServer s key srv handler).routes = s.routes ∧
    (bindAwsServer s key srv handler).closed = s.closed := by
  unfold bindAwsServer
  split
  · split <;> simp
  · simp

theorem bindAwsServer_get? (s : Supervisor) (key : String) (srv : Server)
    (handler : Option ServiceHandler) (k : String) (v : Server)
    (h : s.awsServers.get? k = some v) :
    (bindAwsServer s key srv handler).awsServers.get? k = some v := by
  unfold bindAwsServer
  split
  · split <;> simpa using h
  · rename_i hnone
    have hk : k ≠ key := by
      intro hk; subst hk; rw [hnone] at h; exact absurd h (by simp)
    simp [GoMap.get?_set_of_ne _ _ hk, h]

theorem bindGcpServer_frame (ext : Externals) (s : Supervisor) (key : String) (srv : Server)
    (handler : Option ServiceHandler) :
    (bindGcpServer ext s key srv handler).awsServers = s.awsServers ∧
    (bindGcpServer ext s key srv handler).routes = s.routes ∧
    (bindGcpServer ext s key srv handler).closed = s.closed := by
  unfold bindGcpServer
  split
  · simp
  · split
    · split <;> simp
    · simp

theorem bindGcpServer_get?_none (ext : Externals) (s : Supervisor) (key : String) (srv : Server)
    (handler : Option ServiceHandler) (k : String) (hk : k ≠ key)
    (h : s.gcpServers.get? k = none) :
    (bindGcpServer ext s key srv handler).gcpServers.get? k = none := by
  unfold bindGcpServer
  split
  · simpa using h
  · split
    · split <;> simpa using h
    · simp [GoMap.get?_set_of_ne _ _ hk, h]

/-- An AWS loop body keeps every server already registered. -/
theorem listenAwsBuilt_awsServers (ext : Externals) (config : Config) (key : String)
    (c : AWSConfig) (built : Built) (s : Supervisor) (k : String) (v : Server)
    (h : s.awsServers.get? k = some v) :
    (listenAwsBuilt ext config key c built s).awsServers.get? k = some v := by
  unfold listenAwsBuilt
  by_cases hl : built.toListen = true
  · simp only [hl, if_true]
    apply bindAwsServer_get?
    rw [(installRoute_frame _ _ _ _ _ _).1]
    exact h
  · simpa [hl] using h

theorem listenAwsBuilt_gcpServers (ext : Externals) (config : Config) (key : String)
    (c : AWSConfig) (built : Built) (s : Supervisor) :
    (listenAwsBuilt ext config key c built s).gcpServers = s.gcpServers := by
  unfold listenAwsBuilt
  by_cases hl : built.toListen = true
  · simp only [hl, if_true]
    rw [(bindAwsServer_frame _ _ _ _).1, (installRoute_frame _ _ _ _ _ _).2.1]
  · simp [hl]

theorem listenGcpBuilt_awsServers (ext : Externals) (config : Config) (key : String)
    (c : AWSConfig) (built : Built) (s : Supervisor) :
    (listenGcpBuilt ext config key c built s).awsServers = s.awsServers := by
  unfold listenGcpBuilt
  by_cases hl : built.toListen = true
  · simp only [hl, if_true]
    rw [(bindGcpServer_frame _ _ _ _ _).1, (installRoute_frame _ _ _ _ _ _).1]
  · simp [hl]

theorem listenGcpBuilt_gcpServers_none (ext : Externals) (config : Config) (key : String)
    (c : AWSConfig) (built : Built) (s : Supervisor) (k : String) (hk : k ≠ key)
    (h : s.gcpServers.get? k = none) :
    (listenGcpBuilt ext config key c built s).gcpServers.get? k = none := by
  unfold listenGcpBuilt
  by_cases hl : built.toListen = true
  · simp only [hl, if_true]
    apply bindGcpServer_get?_none _ _ _ _ _ _ hk
    rw [(installRoute_frame _ _ _ _ _ _).2.1]
    exact h
  · simpa [hl] using h

theorem listenAwsBuilt_routes (ext : Externals) (config : Config) (key : String)
    (c : AWSConfig) (built : Built) (s : Supervisor) (k : String) (w : Nat)
    (h : s.routes.get? k = some w) :
    (listenAwsBuilt ext config key c built s).routes.get? k = some w := by
  unfold listenAwsBuilt
  by_cases hl : built.toListen = true
  · simp only [hl, if_true]
    rw [(bindAwsServer_frame _ _ _ _).2.1]
    exact installRoute_routes _ _ _ _ _ _ _ _ h
  · simpa [hl] using h

theorem listenGcpBuilt_routes (ext : Externals) (config : Config) (key : String)
    (c : AWSConfig) (built : Built) (s : Supervisor) (k : String) (w : Nat)
    (h : s.routes.get? k = some w) :
    (listenGcpBuilt ext config key c built s).routes.get? k = some w := by
  unfold listenGcpBuilt
  by_cases hl : built.toListen = true
  · simp only [hl, if_true]
    rw [(bindGcpServer_frame _ _ _ _ _).2.1]
    exact installRoute_routes _ _ _ _ _ _ _ _ h
  · simpa [hl] using h

/-! ## The listener supervisor: the loops over the configuration -/

theorem foldlM_isSome {α β : Type} (f : β → α → Option β) (l : List α)
    (hstep : ∀ x ∈ l, ∀ st, (f st x).isSome = true) :
    ∀ st, (l.foldlM f st).isSome = true := by
  induction l with
  | nil => intro st; rfl
  | cons x xs ih =>
    intro st
    simp only [List.foldlM_cons]
    obtain ⟨st2, hx⟩ := Option.isSome_iff_exists.mp (hstep x (List.mem_cons_self _ _) st)
    rw [hx]
    exact ih (fun y hy => hstep y (List.mem_cons_of_mem _ hy)) st2

theorem CreateHandlerAWS_isSome_addr (ext : Externals) (key : String) (c : AWSConfig)
    (a b : Nat) : (CreateHandlerAWS ext key c a).isSome = (CreateHandlerAWS ext key c b).isSome := by
  unfold CreateHandlerAWS
  repeat' split
  all_goals rfl

theorem CreateHandlerGCP_isSome_addr (ext : Externals) (key : String) (c : AWSConfig)
    (a b : Nat) : (CreateHandlerGCP ext key c a).isSome = (CreateHandlerGCP ext key c b).isSome := by
  unfold CreateHandlerGCP
  repeat' split
  all_goals rfl

theorem listenAws_eq (ext : Externals) (config : Config) (key : String) (c : AWSConfig)
    (st st1 : Supervisor × GoMap (Option ServiceHandler))
    (h : listenAws ext config key c st = some st1) :
    ∃ built, st1.1 = listenAwsBuilt ext config key c built st.1 := by
  unfold listenAws at h
  split at h
  · simp at h
  · rename_i built _
    simp only [Option.some.injEq] at h
    exact ⟨built, by rw [← h]⟩

theorem listenGcp_eq (ext : Externals) (config : Config) (key : String) (c : AWSConfig)
    (st st1 : Supervisor × GoMap (Option ServiceHandler))
    (h : listenGcp ext config key c st = some st1) :
    ∃ built, st1.1 = listenGcpBuilt ext config key c built st.1 := by
  unfold listenGcp at h
  split at h
  · simp at h
  · rename_i built _
    simp only [Option.some.injEq] at h
    exact ⟨built, by rw [← h]⟩

/-- A pass whose factories all return completes its loops over the configuration. -/
theorem listenConfigs_isSome (ext : Externals) (config : Config) (s : Supervisor)
    (hf : factoriesReturn ext config = true) : ∃ r, listenConfigs ext config s = some r := by
  simp only [factoriesReturn, Bool.and_eq_true, List.all_eq_true] at hf
  have hg : ∀ st, (config.GcpConfigs.entries.foldlM
      (fun st kv => listenGcp ext config kv.1 kv.2 st) st).isSome = true := by
    apply foldlM_isSome
    intro kv hkv st
    have h1 := hf.1 kv hkv
    rw [CreateHandlerGCP_isSome_addr ext kv.1 kv.2 0 st.1.nextAddr] at h1
    obtain ⟨b, hb⟩ := Option.isSome_iff_exists.mp h1
    simp [listenGcp, hb]
  have ha : ∀ st, (config.AwsConfigs.entries.foldlM
      (fun st kv => listenAws ext config kv.1 kv.2 st) st).isSome = true := by
    apply foldlM_isSome
    intro kv hkv st
    have h1 := hf.2 kv hkv
    rw [CreateHandlerAWS_isSome_addr ext kv.1 kv.2 0 st.1.nextAddr] at h1
    obtain ⟨b, hb⟩ := Option.isSome_iff_exists.mp h1
    simp [listenAws, hb]
  obtain ⟨r1, hr1⟩ := Option.isSome_iff_exists.mp (hg (s, GoMap.empty))
  obtain ⟨r2, hr2⟩ := Option.isSome_iff_exists.mp (ha (r1.1, GoMap.empty))
  exact ⟨(r2.1, r1.2, r2.2), by simp [listenConfigs, hr1, hr2]⟩

/-- A property of the supervisor state that every loop body keeps is kept by
the loops of a pass over the configuration; the body may be assumed to run on a
key of the map it iterates. -/
theorem listenConfigs_invariant (ext : Externals) (config : Config) (Inv : Supervisor → Prop)
    (hgcp : ∀ kv ∈ config.GcpConfigs.entries, ∀ built s, Inv s →
      Inv (listenGcpBuilt ext config kv.1 kv.2 built s))
    (haws : ∀ kv ∈ config.AwsConfigs.entries, ∀ built s, Inv s →
      Inv (listenAwsBuilt ext config kv.1 kv.2 built s))
    (s : Supervisor) (r : Supervisor × GoMap (Option ServiceHandler) × GoMap (Option ServiceHandler))
    (h : listenConfigs ext config s = some r) (hs : Inv s) : Inv r.1 := by
  unfold listenConfigs at h
  split at h
  · simp at h
  · rename_i afterGcp hg
    split at h
    · simp at h
    · rename_i afterAws ha
      simp only [Option.some.injEq] at h
      rw [← h]
      have h1 : Inv afterGcp.1 :=
        foldlM_invariant (fun st kv => listenGcp ext config kv.1 kv.2 st) (fun st => Inv st.1)
          config.GcpConfigs.entries
          (fun kv hkv st st1 hst hi => by
            obtain ⟨built, hb⟩ := listenGcp_eq ext config kv.1 kv.2 st st1 hst
            rw [hb]; exact hgcp kv hkv built st.1 hi)
          (s, GoMap.empty) afterGcp hg hs
      exact foldlM_invariant (fun st kv => listenAws ext config kv.1 kv.2 st)
          (fun st => Inv st.1) config.AwsConfigs.entries
          (fun kv hkv st st1 hst hi => by
            obtain ⟨built, hb⟩ := listenAws_eq ext config kv.1 kv.2 st st1 hst
            rw [hb]; exact haws kv hkv built st.1 hi)
          (afterGcp.1, GoMap.empty) afterAws ha h1

/-! ## The listener supervisor: the removal loops -/

theorem removeAwsStep_gcpServers (config : Config) (s : Supervisor) (e : String × Server) :
    (removeAwsStep config s e).gcpServers = s.gcpServers := by
  unfold removeAwsStep
  split <;> rfl

/-- Neither removal loop body brings a key back or forgets a closed server. -/
theorem removeAwsStep_mono (config : Config) (s : Supervisor) (e : String × Server)
    (k : String) :
    (s.awsServers.get? k = none → (removeAwsStep config s e).awsServers.get? k = none) ∧
    (s.routes.get? k = none → (removeAwsStep config s e).routes.get? k = none) ∧
    (∀ x, x ∈ s.closed → x ∈ (removeAwsStep config s e).closed) := by
  unfold removeAwsStep
  split
  · exact ⟨fun h => GoMap.get?_delete_eq_none _ _ _ h, fun h => GoMap.get?_delete_eq_none _ _ _ h,
      fun x hx => List.mem_append_left _ hx⟩
  · exact ⟨fun h => h, fun h => h, fun x hx => hx⟩

theorem removeGcpStep_mono (config : Config) (s : Supervisor) (e : String × Server)
    (k : String) :
    (s.awsServers.get? k = none → (removeGcpStep config s e).awsServers.get? k = none) ∧
    (s.routes.get? k = none → (removeGcpStep config s e).routes.get? k = none) ∧
    (∀ x, x ∈ s.closed → x ∈ (removeGcpStep config s e).closed) := by
  unfold removeGcpStep
  split
  · exact ⟨fun h => GoMap.get?_delete_eq_none _ _ _ h, fun h => GoMap.get?_delete_eq_none _ _ _ h,
      fun x hx => List.mem_append_left _ hx⟩
  · exact ⟨fun h => h, fun h => h, fun x hx => hx⟩

/-- The AWS removal loop body, on an entry whose key is not configured, closes
the server and deletes the key from `awsServers` and `routes`. -/
theorem removeAwsStep_stale (config : Config) (s : Supervisor) (e : String × Server)
    (h : config.AwsConfigs.contains e.1 = false) :
    (removeAwsStep config s e).awsServers.get? e.1 = none ∧
    (removeAwsStep config s e).routes.get? e.1 = none ∧
    e.2 ∈ (removeAwsStep config s e).closed := by
  simp [removeAwsStep, h, GoMap.get?_delete_self]

/-- The removal loop bodies leave a key alone unless they run on that key and
the key is not configured. -/
theorem removeAwsStep_keep (config : Config) (s : Supervisor) (e : String × Server)
    (k : String) (hk : e.1 ≠ k ∨ config.AwsConfigs.contains e.1 = true) :
    (removeAwsStep config s e).awsServers.get? k = s.awsServers.get? k ∧
    (removeAwsStep config s e).routes.get? k = s.routes.get? k := by
  unfold removeAwsStep
  by_cases hc : config.AwsConfigs.contains e.1 = true
  · simp [hc]
  · rcases hk with hk | hk
    · have hne : k ≠ e.1 := fun x => hk x.symm
      simp [hc, GoMap.get?_delete_of_ne _ hne]
    · exact absurd hk hc

theorem removeGcpStep_keep (config : Config) (s : Supervisor) (e : String × Server)
    (k : String) (hk : e.1 ≠ k ∨ config.GcpConfigs.contains e.1 = true) :
    (removeGcpStep config s e).awsServers.get? k = s.awsServers.get? k ∧
    (removeGcpStep config s e).routes.get? k = s.routes.get? k := by
  unfold removeGcpStep
  by_cases hc : config.GcpConfigs.contains e.1 = true
  · simp [hc]
  · rcases hk with hk | hk
    · have hne : k ≠ e.1 := fun x => hk x.symm
      simp [hc, GoMap.get?_delete_of_ne _ hne]
    · exact absurd hk hc

theorem removeAws_mono (config : Config) (l : List (String × Server)) (s : Supervisor)
    (k : String) :
    (s.awsServers.get? k = none → (l.foldl (removeAwsStep config) s).awsServers.get? k = none) ∧
    (s.routes.get? k = none → (l.foldl (removeAwsStep config) s).routes.get? k = none) ∧
    (∀ x, x ∈ s.closed → x ∈ (l.foldl (removeAwsStep config) s).closed) := by
  refine ⟨fun h => ?_, fun h => ?_, fun x hx => ?_⟩
  · exact foldl_invariant (removeAwsStep config) (fun t => t.awsServers.get? k = none) l
      (fun e _ t ht => (removeAwsStep_mono config t e k).1 ht) s h
  · exact foldl_invariant (removeAwsStep config) (fun t => t.routes.get? k = none) l
      (fun e _ t ht => (removeAwsStep_mono config t e k).2.1 ht) s h
  · exact foldl_invariant (removeAwsStep config) (fun t => x ∈ t.closed) l
      (fun e _ t ht => (removeAwsStep_mono config t e k).2.2 x ht) s hx

theorem removeGcp_mono (config : Config) (l : List (String × Server)) (s : Supervisor)
    (k : String) :
    (s.awsServers.get? k = none → (l.foldl (removeGcpStep config) s).awsServers.get? k = none) ∧
    (s.routes.get? k = none → (l.foldl (removeGcpStep config) s).routes.get? k = none) ∧
    (∀ x, x ∈ s.closed → x ∈ (l.foldl (removeGcpStep config) s).closed) := by
  refine ⟨fun h => ?_, fun h => ?_, fun x hx => ?_⟩
  · exact foldl_invariant (removeGcpStep config) (fun t => t.awsServers.get? k = none) l
      (fun e _ t ht => (removeGcpStep_mono config t e k).1 ht) s h
  · exact foldl_invariant (removeGcpStep config) (fun t => t.routes.get? k = none) l
      (fun e _ t ht => (removeGcpStep_mono config t e k).2.1 ht) s h
  · exact foldl_invariant (removeGcpStep config) (fun t => x ∈ t.closed) l
      (fun e _ t ht => (removeGcpStep_mono config t e k).2.2 x ht) s hx

/-- The AWS removal loop deletes from `awsServers` every key that is not
configured: such a key is either absent already or met by the loop. -/
theorem removeAws_awsServers (config : Config) (k : String)
    (hk : config.AwsConfigs.contains k = false) (l : List (String × Server)) :
    ∀ s : Supervisor, (s.awsServers.get? k = none ∨ k ∈ l.map (fun e => e.1)) →
      (l.foldl (removeAwsStep config) s).awsServers.get? k = none := by
  induction l with
  | nil =>
    intro s h
    rcases h with h | h
    · exact h
    · simp at h
  | cons e es ih =>
    intro s h
    simp only [List.foldl_cons]
    by_cases he : e.1 = k
    · apply ih
      left
      have := (removeAwsStep_stale config s e (by rw [he]; exact hk)).1
      rw [he] at this
      exact this
    · apply ih
      rcases h with h | h
      · left; exact (removeAwsStep_mono config s e k).1 h
      · right
        simp only [List.map_cons, List.mem_cons] at h
        rcases h with h | h
        · exact absurd h.symm he
        · exact h

/-- The AWS removal loop deletes from `routes`, and closes the server of, every
entry it meets whose key is not configured. -/
theorem removeAws_stale_entry (config : Config) (k : String) (srv : Server)
    (hk : config.AwsConfigs.contains k = false) (l : List (String × Server)) :
    ∀ s : Supervisor, (k, srv) ∈ l →
      (l.foldl (removeAwsStep config) s).routes.get? k = none ∧
      srv ∈ (l.foldl (removeAwsStep config) s).closed := by
  induction l with
  | nil => intro s h; simp at h
  | cons e es ih =>
    intro s h
    simp only [List.foldl_cons]
    rcases List.mem_cons.mp h with h | h
    · have hst := removeAwsStep_stale config s e (by rw [← h]; exact hk)
      rw [← h] at hst
      have hm := removeAws_mono config es (removeAwsStep config s (k, srv)) k
      rw [← h]
      exact ⟨hm.2.1 hst.2.1, hm.2.2 srv hst.2.2⟩
    · exact ih _ h

theorem removeAws_gcpServers (config : Config) (l : List (String × Server)) (s : Supervisor) :
    (l.foldl (removeAwsStep config) s).gcpServers = s.gcpServers :=
  foldl_invariant (removeAwsStep config) (fun t => t.gcpServers = s.gcpServers) l
    (fun e _ t ht => (removeAwsStep_gcpServers config t e).trans ht) s rfl

/-! ## The listener supervisor: passes -/

theorem Listen_eq (ext : Externals) (config : Config) (s : Supervisor)
    (r : Supervisor × GoMap (Option ServiceHandler) × GoMap (Option ServiceHandler))
    (hr : listenConfigs ext config s = some r) :
    Listen ext config s = some
      { (List.foldl (removeGcpStep config)
          (r.1.awsServers.entries.foldl (removeAwsStep config) r.1)
          (r.1.awsServers.entries.foldl (removeAwsStep config) r.1).gcpServers.entries) with
        awsHandlers := r.2.2, gcpHandlers := r.2.1 } := by
  obtain ⟨s2, lg, la⟩ := r
  simp [Listen, hr]

/-- The loops over the configuration keep every AWS server already registered. -/
theorem listenConfigs_awsServers (ext : Externals) (config : Config) (s : Supervisor)
    (r : Supervisor × GoMap (Option ServiceHandler) × GoMap (Option ServiceHandler))
    (hr : listenConfigs ext config s = some r) (key : String) (srv : Server)
    (hsrv : s.awsServers.get? key = some srv) : r.1.awsServers.get? key = some srv :=
  listenConfigs_invariant ext config (fun t => t.awsServers.get? key = some srv)
    (fun kv _ built t ht => by
      show (listenGcpBuilt ext config kv.1 kv.2 built t).awsServers.get? key = some srv
      rw [listenGcpBuilt_awsServers]; exact ht)
    (fun kv _ built t ht => listenAwsBuilt_awsServers ext config kv.1 kv.2 built t key srv ht)
    s r hr hsrv

/-- The loops over the configuration keep every route already registered. -/
theorem listenConfigs_routes (ext : Externals) (config : Config) (s : Supervisor)
    (r : Supervisor × GoMap (Option ServiceHandler) × GoMap (Option ServiceHandler))
    (hr : listenConfigs ext config s = some r) (key : String) (w : Nat)
    (hw : s.routes.get? key = some w) : r.1.routes.get? key = some w :=
  listenConfigs_invariant ext config (fun t => t.routes.get? key = some w)
    (fun kv _ built t ht => listenGcpBuilt_routes ext config kv.1 kv.2 built t key w ht)
    (fun kv _ built t ht => listenAwsBuilt_routes ext config kv.1 kv.2 built t key w ht)
    s r hr hw

/-- The loops over the configuration add no GCP server for a key outside
`config.GcpConfigs`. -/
theorem listenConfigs_gcpServers_none (ext : Externals) (config : Config) (s : Supervisor)
    (r : Supervisor × GoMap (Option ServiceHandler) × GoMap (Option ServiceHandler))
    (hr : listenConfigs ext config s = some r) (key : String)
    (hcfg : config.GcpConfigs.contains key = false)
    (hnone : s.gcpServers.get? key = none) : r.1.gcpServers.get? key = none :=
  listenConfigs_invariant ext config (fun t => t.gcpServers.get? key = none)
    (fun kv hkv built t ht =>
      listenGcpBuilt_gcpServers_none ext config kv.1 kv.2 built t key
        (fun h => GoMap.ne_of_mem_of_not_contains _ key kv hkv hcfg h.symm) ht)
    (fun kv _ built t ht => by
      show (listenAwsBuilt ext config kv.1 kv.2 built t).gcpServers.get? key = none
      rw [listenAwsBuilt_gcpServers]; exact ht)
    s r hr hnone

set_option maxRecDepth 100000 in
/-- C9, counterexample: after a first pass has bound `k1`, a pass over a
configuration without `k1` whose only tenant makes its factory dereference a
nil raw key. The key `k1` has an AWS server and is absent from
`config.AwsConfigs`, but the pass panics in its loop over the configuration,
before the removal loops: it does not complete, and the server of `k1` is
neither closed nor dropped. -/
theorem Listen_factory_panic_keeps_stale :
    afterFirstPass.awsServers.contains "k1" = true ∧
    (mkConfig [("k2", keylessTenant 9002)] []).AwsConfigs.contains "k1" = false ∧
    (CreateHandlerAWS plainExternals "k2" (keylessTenant 9002) afterFirstPass.nextAddr).isNone
      = true ∧
    (listenConfigs plainExternals (mkConfig [("k2", keylessTenant 9002)] [])
      afterFirstPass).isNone = true ∧
    (Listen plainExternals (mkConfig [("k2", keylessTenant 9002)] []) afterFirstPass).isNone
      = true := by
  refine ⟨by decide, by decide, by decide, by decide, by decide⟩

/-- C9, as amended: in every pass in which no handler factory panics, the pass
completes, and a key that has an AWS server
before the pass and is absent from `config.AwsConfigs` has its server closed
and is afterwards in neither `awsServers` nor `routes`; and every key left in
`awsServers` is a key of `config.AwsConfigs`. -/
theorem Listen_drops_stale_aws (ext : Externals) (config : Config) (s : Supervisor)
    (key : String) (hf : factoriesReturn ext config = true)
    (hentry : s.awsServers.contains key = true)
    (habsent : config.AwsConfigs.contains key = false) :
    ∃ s1, Listen ext config s = some s1 ∧
      s1.awsServers.contains key = false ∧ s1.routes.contains key = false ∧
      (∀ srv, s.awsServers.get? key = some srv → srv ∈ s1.closed) ∧
      (∀ k, s1.awsServers.contains k = true → config.AwsConfigs.contains k = true) := by
  obtain ⟨r, hr⟩ := listenConfigs_isSome ext config s hf
  refine ⟨_, Listen_eq ext config s r hr, ?_, ?_, ?_, ?_⟩
  · rw [GoMap.contains_eq_false_iff]
    rw [GoMap.contains_eq_isSome] at hentry
    obtain ⟨srv, hsrv⟩ := Option.isSome_iff_exists.mp hentry
    have h2 := listenConfigs_awsServers ext config s r hr key srv hsrv
    have hmem : key ∈ r.1.awsServers.entries.map (fun e => e.1) :=
      List.mem_map.mpr ⟨(key, srv), GoMap.mem_entries_of_get? _ _ _ h2, rfl⟩
    exact (removeGcp_mono config _ _ key).1
      (removeAws_awsServers config key habsent _ r.1 (Or.inr hmem))
  · rw [GoMap.contains_eq_false_iff]
    rw [GoMap.contains_eq_isSome] at hentry
    obtain ⟨srv, hsrv⟩ := Option.isSome_iff_exists.mp hentry
    have h2 := listenConfigs_awsServers ext config s r hr key srv hsrv
    exact (removeGcp_mono config _ _ key).2.1
      (removeAws_stale_entry config key srv habsent _ r.1
        (GoMap.mem_entries_of_get? _ _ _ h2)).1
  · intro srv hsrv
    have h2 := listenConfigs_awsServers ext config s r hr key srv hsrv
    exact (removeGcp_mono config _ _ key).2.2 srv
      (removeAws_stale_entry config key srv habsent _ r.1
        (GoMap.mem_entries_of_get? _ _ _ h2)).2
  · intro k hk
    by_contra hc
    have hc1 : config.AwsConfigs.contains k = false := by simpa using hc
    have hnone : (List.foldl (removeGcpStep config)
          (r.1.awsServers.entries.foldl (removeAwsStep config) r.1)
          (r.1.awsServers.entries.foldl (removeAwsStep config) r.1).gcpServers.entries
          ).awsServers.get? k = none := by
      apply (removeGcp_mono config _ _ k).1
      apply removeAws_awsServers config k hc1
      cases hg : r.1.awsServers.get? k with
      | none => exact Or.inl rfl
      | some v =>
        exact Or.inr (List.mem_map.mpr ⟨(k, v), GoMap.mem_entries_of_get? _ _ _ hg, rfl⟩)
    rw [GoMap.contains_eq_isSome] at hk
    simp only at hk
    rw [hnone] at hk
    exact absurd hk (by simp)

set_option maxRecDepth 100000 in
theorem Listen_drops_stale_aws_witness :
    ∃ s1, Listen plainExternals (mkConfig [] []) afterFirstPass = some s1 ∧
      s1.awsServers.contains "k1" = false ∧ s1.routes.contains "k1" = false ∧
      (∀ srv, afterFirstPass.awsServers.get? "k1" = some srv → srv ∈ s1.closed) ∧
      (∀ k, s1.awsServers.contains k = true → (mkConfig [] []).AwsConfigs.contains k = true) :=
  Listen_drops_stale_aws plainExternals (mkConfig [] []) afterFirstPass "k1"
    (by decide) (by decide) (by decide)

set_option maxRecDepth 100000 in
/-- C10, at the failing input: after a first pass has bound the GCS tenant `g1`,
a pass over a configuration without `g1` closes its server and leaves the key
`g1` in `gcpServers`, with the closed server, although `g1` is not a key of
`config.GcpConfigs`. -/
theorem Listen_keeps_stale_gcp :
    afterGcpPass.gcpServers.get? "g1" = some ⟨5, 3, "127.0.0.1:9003"⟩ ∧
    (mkConfig [] []).GcpConfigs.contains "g1" = false ∧
    (Listen plainExternals (mkConfig [] []) afterGcpPass).map
        (fun s1 => (s1.gcpServers.get? "g1", s1.closed)) =
      some (some ⟨5, 3, "127.0.0.1:9003"⟩, [⟨5, 3, "127.0.0.1:9003"⟩]) := by
  refine ⟨by decide, by decide, by decide⟩

set_option maxRecDepth 100000 in
/-- C8, counterexample: a first pass binds tenant `k1` on port 9001; a second
pass gives `k1` port 9002. After it the registered server is the old one, but
the inner router installed in the wrapper of `k1` is a new object, not the one
installed before the pass, and the old inner router has been handed to a drain
with the old handler. -/
theorem Listen_port_change_swaps_router :
    afterFirstPass.awsServers.get? "k1" = some ⟨5, 3, "127.0.0.1:9001"⟩ ∧
    bindAddr (tenant "s3" 9002).Port ≠ "127.0.0.1:9001" ∧
    innerRouter afterFirstPass "k1" = some ⟨2, ⟨0, "s3", ["loggingMiddleware"]⟩, 0⟩ ∧
    (Listen plainExternals (mkConfig [("k1", tenant "s3" 9002)] []) afterFirstPass).map
        (fun s1 => (s1.awsServers.get? "k1", innerRouter s1 "k1", s1.draining)) =
      some (some ⟨5, 3, "127.0.0.1:9001"⟩,
        some ⟨10, ⟨6, "s3", ["loggingMiddleware"]⟩, 0⟩,
        [(some ⟨2, ⟨0, "s3", ["loggingMiddleware"]⟩, 0⟩, some ⟨1, "s3", "k1"⟩)]) ∧
    (⟨10, ⟨6, "s3", ["loggingMiddleware"]⟩, 0⟩ : RouterWithCounter) ≠
      ⟨2, ⟨0, "s3", ["loggingMiddleware"]⟩, 0⟩ := by
  refine ⟨by decide, by decide, by decide, by decide, by decide⟩

/-- C8, as amended: in every pass whose factories return, when a key of
`config.AwsConfigs` already has an AWS server, the new configuration gives it
another port, and the key is not at the same time a GCP server key missing from
`config.GcpConfigs`, the rebinding is refused: after the pass the server
registered for the key is the same object as before, still on its old address
and not on the new one, and the wrapper registered for the key in `routes` is
the same wrapper as before. -/
theorem Listen_keeps_bound_server (ext : Externals) (config : Config) (s : Supervisor)
    (key : String) (srv : Server) (c : AWSConfig)
    (hf : factoriesReturn ext config = true)
    (hsrv : s.awsServers.get? key = some srv)
    (hcfg : config.AwsConfigs.get? key = some c)
    (hport : bindAddr c.Port ≠ srv.Addr)
    (hgcp : s.gcpServers.contains key = false ∨ config.GcpConfigs.contains key = true) :
    ∃ s1, Listen ext config s = some s1 ∧
      s1.awsServers.get? key = some srv ∧
      (s1.awsServers.get? key).map (fun v => v.Addr) ≠ some (bindAddr c.Port) ∧
      (∀ w, s.routes.get? key = some w → s1.routes.get? key = some w) := by
  obtain ⟨r, hr⟩ := listenConfigs_isSome ext config s hf
  have hin : config.AwsConfigs.contains key = true := by
    rw [GoMap.contains_eq_isSome, hcfg]; rfl
  have h2 := listenConfigs_awsServers ext config s r hr key srv hsrv
  -- the GCP removal loop never runs on this key with the key not configured
  have hloop4 : ∀ e ∈ r.1.gcpServers.entries,
      e.1 ≠ key ∨ config.GcpConfigs.contains e.1 = true := by
    intro e he
    by_cases hc : config.GcpConfigs.contains key = true
    · by_cases hek : e.1 = key
      · right; rw [hek]; exact hc
      · left; exact hek
    · left
      have hc1 : config.GcpConfigs.contains key = false := by simpa using hc
      have hs0 : s.gcpServers.get? key = none := by
        rcases hgcp with h | h
        · exact (GoMap.contains_eq_false_iff _ _).mp h
        · exact absurd h hc
      have hnone := listenConfigs_gcpServers_none ext config s r hr key hc1 hs0
      exact (GoMap.get?_eq_none_iff _ _).mp hnone e he
  have keep3 : ∀ t : Supervisor,
      (r.1.awsServers.entries.foldl (removeAwsStep config) t).awsServers.get? key
          = t.awsServers.get? key ∧
      (r.1.awsServers.entries.foldl (removeAwsStep config) t).routes.get? key
          = t.routes.get? key := by
    intro t
    exact foldl_invariant (removeAwsStep config)
      (fun u => u.awsServers.get? key = t.awsServers.get? key ∧
        u.routes.get? key = t.routes.get? key) _
      (fun e _ u hu => by
        have hk := removeAwsStep_keep config u e key
          (by by_cases hek : e.1 = key
              · right; rw [hek]; exact hin
              · left; exact hek)
        exact ⟨hk.1.trans hu.1, hk.2.trans hu.2⟩) t ⟨rfl, rfl⟩
  have keep4 : ∀ t : Supervisor,
      (r.1.gcpServers.entries.foldl (removeGcpStep config) t).awsServers.get? key
          = t.awsServers.get? key ∧
      (r.1.gcpServers.entries.foldl (removeGcpStep config) t).routes.get? key
          = t.routes.get? key := by
    intro t
    exact foldl_invariant (removeGcpStep config)
      (fun u => u.awsServers.get? key = t.awsServers.get? key ∧
        u.routes.get? key = t.routes.get? key) _
      (fun e he u hu => by
        have hk := removeGcpStep_keep config u e key (hloop4 e he)
        exact ⟨hk.1.trans hu.1, hk.2.trans hu.2⟩) t ⟨rfl, rfl⟩
  have hfinal : (List.foldl (removeGcpStep config)
        (r.1.awsServers.entries.foldl (removeAwsStep config) r.1)
        (r.1.awsServers.entries.foldl (removeAwsStep config) r.1).gcpServers.entries
        ).awsServers.get? key = some srv := by
    rw [removeAws_gcpServers, (keep4 _).1, (keep3 _).1]
    exact h2
  refine ⟨_, Listen_eq ext config s r hr, hfinal, ?_, ?_⟩
  · simp only at hfinal ⊢
    rw [hfinal]
    intro h
    simp only [Option.map_some', Option.some.injEq] at h
    exact hport h.symm
  · intro w hw
    have h3 := listenConfigs_routes ext config s r hr key w hw
    show (List.foldl (removeGcpStep config)
        (r.1.awsServers.entries.foldl (removeAwsStep config) r.1)
        (r.1.awsServers.entries.foldl (removeAwsStep config) r.1).gcpServers.entries
        ).routes.get? key = some w
    rw [removeAws_gcpServers, (keep4 _).2, (keep3 _).2]
    exact h3

set_option maxRecDepth 100000 in
theorem Listen_keeps_bound_server_witness :
    ∃ s1, Listen plainExternals (mkConfig [("k1", tenant "s3" 9002)] []) afterFirstPass = some s1 ∧
      s1.awsServers.get? "k1" = some ⟨5, 3, "127.0.0.1:9001"⟩ ∧
      (s1.awsServers.get? "k1").map (fun v => v.Addr) ≠ some (bindAddr (tenant "s3" 9002).Port) ∧
      (∀ w, afterFirstPass.routes.get? "k1" = some w → s1.routes.get? "k1" = some w) :=
  Listen_keeps_bound_server plainExternals (mkConfig [("k1", tenant "s3" 9002)] [])
    afterFirstPass "k1" ⟨5, 3, "127.0.0.1:9001"⟩ (tenant "s3" 9002)
    (by decide) (by decide) (by decide) (by decide) (Or.inl (by decide))

/-! ## The handler factory and the empty service type -/

/-- For the empty service type `CreateHandlerAWS` returns a nil handler, a
router with the catch-all only, and `toListen = true`. -/
theorem CreateHandlerAWS_empty_service (ext : Externals) (key : String) (c : AWSConfig)
    (addr : Nat) (hc : c.ServiceType = "") :
    CreateHandlerAWS ext key c addr = some ⟨none, ⟨addr, "", ["loggingMiddleware"]⟩, true⟩ := by
  have h1 : (c.ServiceType == "s3") = false := by rw [hc]; decide
  have h2 : (c.ServiceType == "kinesis") = false := by rw [hc]; decide
  have h3 : (c.ServiceType == "sqs") = false := by rw [hc]; decide
  have h4 : (c.ServiceType == "") = true := by rw [hc]; decide
  simp [CreateHandlerAWS, h1, h2, h3, h4]

set_option maxRecDepth 100000 in
/-- C11, at the failing input: for a tenant whose service type is the empty
string `CreateHandlerAWS` returns `toListen = true`, not `false`, with a nil
handler, and the pass of `Listen` over that configuration binds a server for
the tenant and starts its serving task. -/
theorem CreateHandlerAWS_empty_service_listens :
    (tenant "" 9000).ServiceType = "" ∧
    (CreateHandlerAWS plainExternals "k0" (tenant "" 9000) 0).map
        (fun built => (built.handler, built.toListen)) = some (none, true) ∧
    (Listen plainExternals (mkConfig [("k0", tenant "" 9000)] []) Supervisor.init).map
        (fun s => (s.awsServers.get? "k0", s.serving)) =
      some (some ⟨5, 3, "127.0.0.1:9000"⟩, [(⟨5, 3, "127.0.0.1:9000"⟩, none)]) := by
  refine ⟨by decide, by decide, by decide⟩

/-! ## UploadPart with a malformed part number -/

theorem UploadPartHandle_status (h : Handler) (fs : FileSystem) (request : Request) :
    (UploadPartHandle h fs ResponseWriter.new request).writer.status = 200 ∨
    (UploadPartHandle h fs ResponseWriter.new request).writer.status = 404 := by
  have hnew : ResponseWriter.new.wroteHeader = none := rfl
  unfold UploadPartHandle
  simp only []
  split
  · split
    · right; exact status_writeError _ _ hnew
    · split
      · right; exact status_writeError _ _ hnew
      · split
        · right; exact status_writeError _ _ hnew
        · left; exact status_ok _ hnew
  · split
    · right; exact status_writeError _ _ hnew
    · left
      split <;> exact status_ok _ (by simp [ResponseWriter.new])
/-- A failed `ParseInt` returns 0 or one of the two bounds of `int64`. -/
theorem ParseIntChars_error_value (s : List Char) (h : (ParseIntChars s).2 ≠ none) :
    (ParseIntChars s).1 = 0 ∨ (ParseIntChars s).1 = 2 ^ 63 - 1 ∨
      (ParseIntChars s).1 = -(2 ^ 63) := by
  unfold ParseIntChars at h ⊢
  cases s with
  | nil => left; rfl
  | cons c cs =>
    simp only [] at h ⊢
    split
    · left; rfl
    · rename_i un e hne heq
      rw [heq] at h
      simp only [] at h
      split
      · right; left; norm_num
      · split
        · right; right; norm_num
        · rename_i h1 h2
          simp only [h1, h2, if_false] at h
          exact absurd rfl h

set_option maxRecDepth 100000 in
/-- C15, at the failing input: for `partNumber=abc` parsing fails, and
`UploadPartHandle` drops the error: it answers 200, not 400 nor any other
error status, after uploading the part object `big-part-0` and writing its
line into the manifest. -/
theorem UploadPartHandle_malformed_part_number :
    (UploadPartParseInput (uploadPartRequest "abc")).2 = some NumError.ErrInvalid ∧
    (UploadPartHandle (memHandler [] "e1") (memFS [("/tmp/multipart/U", "")])
        ResponseWriter.new (uploadPartRequest "abc")).writer.status = 200 ∧
    (UploadPartHandle (memHandler [] "e1") (memFS [("/tmp/multipart/U", "")])
        ResponseWriter.new (uploadPartRequest "abc")).trace =
      [Event.gcpUpload "b1" "big-part-0" (PutParseInput (uploadPartRequest "abc")),
       Event.gcpWriterClose "b1" "big-part-0", Event.gcpAttrs "b1" "big-part-0"] ∧
    (UploadPartHandle (memHandler [] "e1") (memFS [("/tmp/multipart/U", "")])
        ResponseWriter.new (uploadPartRequest "abc")).fs.files.get? "/tmp/multipart/U" =
      some "e1,big-part-0\n" := by
  refine ⟨by decide, by decide, by decide, by decide⟩

/-! ## GET: range parsing without `=`, and readers that fail -/

/-- A `Range` value without `=` makes the range step panic. -/
theorem parseRange_without_equal (range : String) (h : '=' ∉ range.data) :
    parseRange range = none := by
  have hs : splitFirst '=' range.data = none := by
    generalize range.data = l at h
    induction l with
    | nil => rfl
    | cons c cs ih =>
      have hc : c ≠ '=' := fun x => h (by simp [x])
      have hcs : '=' ∉ cs := fun x => h (List.mem_cons_of_mem _ x)
      simp [splitFirst, hc, ih hcs]
  simp [parseRange, SplitN2, hs]

set_option maxRecDepth 100000 in
/-- C17, at the failing input: for the non-empty header `Range: bytes` the split
on `=` has one piece, indexing its second piece is out of bounds, and
`GetHandle` panics, after the object's attributes were read and before any
reader is opened. -/
theorem GetHandle_range_without_equal_panics :
    ("bytes" != "") = true ∧
    SplitN2 "bytes".data '=' = ["bytes".data] ∧
    parseRange "bytes" = none ∧
    (match GetHandle 2 numsHandler (memFS []) ResponseWriter.new (rangeRequest "bytes") with
      | Run.panic => true
      | _ => false) = true := by
  refine ⟨by decide, by decide, by decide, by decide⟩

/-- With a reader that keeps returning a non-EOF error the copy loop does not
end within any number of iterations. -/
theorem copyLoop_cancelled (fuel i : Nat) (w : ResponseWriter) (trace : List Event) :
    copyLoop cancelledReader fuel i w trace = none := by
  induction fuel generalizing i w trace with
  | zero => rfl
  | succ fuel ih =>
    rw [copyLoop]
    have hne : ¬ ((cancelledReader.read i).err = some ReadError.EOF) := by
      simp only [cancelledReader]
      split <;> simp
    simp only [hne, if_false]
    exact ih _ _ _

set_option maxRecDepth 100000 in
/-- C18, at the failing input: the first `Read` returns the bytes `ab` with a
non-EOF error (a cancelled request context). When the next `Read` returns
`io.EOF`, `GetHandle` has written `ab` and then performed that further `Read`;
when every later `Read` returns the same error, `GetHandle` does not return
within any number of iterations, so the reader is not closed. -/
theorem GetHandle_non_eof_error_keeps_reading :
    (errorThenEofReader.read 0).err = some (ReadError.other "context canceled") ∧
    (GetHandle 2 (readerHandler errorThenEofReader) (memFS []) ResponseWriter.new
        (mkRequest [("bucket", "b1"), ("key", "nums")] [] "")).result.map
        (fun out => (out.writer.body, out.trace)) =
      some ("ab", [Event.gcpAttrs "b1" "nums", Event.gcpReader "b1" "nums",
        Event.read 0, Event.read 1, Event.readerClose]) ∧
    (∀ fuel, (GetHandle fuel (readerHandler cancelledReader) (memFS []) ResponseWriter.new
        (mkRequest [("bucket", "b1"), ("key", "nums")] [] "")).result.isNone = true) := by
  refine ⟨by decide, by decide, ?_⟩
  intro fuel
  have hget : (mkRequest [("bucket", "b1"), ("key", "nums")] [] "").header.Get "Range" = "" := by
    decide
  simp [GetHandle, readerHandler, hget, GetParseInput, copyLoop_cancelled, Run.result]

/-! ## The part object key -/

theorem digits_append_sep_inj (R R1 T T1 : List Char)
    (hR : ∀ c ∈ R, (digitVal c).isSome = true) (hR1 : ∀ c ∈ R1, (digitVal c).isSome = true)
    (h : R ++ '-' :: T = R1 ++ '-' :: T1) : R = R1 ∧ T = T1 := by
  induction R generalizing R1 with
  | nil =>
    cases R1 with
    | nil => simpa using h
    | cons c cs =>
      simp only [List.nil_append, List.cons_append, List.cons.injEq] at h
      exact absurd h.1.symm (digit_ne_sign c (hR1 c (List.mem_cons_self _ _))).2.1
  | cons a as ih =>
    cases R1 with
    | nil =>
      simp only [List.nil_append, List.cons_append, List.cons.injEq] at h
      exact absurd h.1 (digit_ne_sign a (hR a (List.mem_cons_self _ _))).2.1
    | cons c cs =>
      simp only [List.cons_append, List.cons.injEq] at h
      obtain ⟨h1, h2⟩ := ih cs (fun x hx => hR x (List.mem_cons_of_mem _ hx))
        (fun x hx => hR1 x (List.mem_cons_of_mem _ hx)) h.2
      exact ⟨by rw [h.1, h1], h2⟩

theorem toString_nat_isDigit (m : Nat) : ∀ c ∈ (toString m).data.reverse,
    (digitVal c).isSome = true := by
  intro c hc
  rw [List.mem_reverse, toString_data] at hc
  exact toDigitsCore_isDigit _ _ c hc

theorem toString_nat_data_inj (m m1 : Nat) (h : (toString m).data = (toString m1).data) :
    m = m1 := by
  have h1 : digitsValue 0 (toString m).data = m := by
    rw [toString_data]; exact digitsValue_toDigitsCore _ _ (by omega)
  have h2 : digitsValue 0 (toString m1).data = m1 := by
    rw [toString_data]; exact digitsValue_toDigitsCore _ _ (by omega)
  rw [← h1, ← h2, h]

theorem toString_int_ofNat (m : Nat) : (toString (Int.ofNat m)).data = (toString m).data := rfl

theorem toString_int_negSucc (m : Nat) :
    (toString (Int.negSucc m)).data = '-' :: (toString (m + 1)).data := rfl

/-- The reversed characters of a part key: the reversed digits of the part
number, a hyphen, and then the rest, which starts with `t` for a part number
that is not negative and with a hyphen for a negative one. -/
theorem partKey_reverse (key : String) (n : Int) :
    (partKey key n).data.reverse =
      match n with
      | Int.ofNat m =>
        (toString m).data.reverse ++ '-' :: ('t' :: 'r' :: 'a' :: 'p' :: '-' :: key.data.reverse)
      | Int.negSucc m =>
        (toString (m + 1)).data.reverse ++
          '-' :: ('-' :: 't' :: 'r' :: 'a' :: 'p' :: '-' :: key.data.reverse) := by
  have hp : "-part-".data = ['-', 'p', 'a', 'r', 't', '-'] := rfl
  cases n with
  | ofNat m =>
    simp only [partKey, formatInt, String.data_append, hp, toString_int_ofNat,
      List.reverse_append, List.reverse_cons, List.reverse_nil, List.nil_append,
      List.append_assoc, List.cons_append]
  | negSucc m =>
    simp only [partKey, formatInt, String.data_append, hp, toString_int_negSucc,
      List.reverse_append, List.reverse_cons, List.reverse_nil, List.nil_append,
      List.append_assoc, List.cons_append]

/-- C19: the part-object-key mapping `(key, partNumber) ↦ key-part-partNumber`
is injective over all strings and all integers, zero and negative part numbers
included: distinct pairs give distinct part object keys. -/
theorem partKey_injective : Function.Injective (fun p : String × Int => partKey p.1 p.2) := by
  rintro ⟨k, n⟩ ⟨k1, n1⟩ h
  have hrev : (partKey k n).data.reverse = (partKey k1 n1).data.reverse := by
    simp only at h
    rw [h]
  rw [partKey_reverse, partKey_reverse] at hrev
  have hkey : ∀ a b : String, a.data.reverse = b.data.reverse → a = b := by
    intro a b hab
    exact String.ext (List.reverse_injective hab)
  cases n with
  | ofNat m =>
    cases n1 with
    | ofNat m1 =>
      simp only at hrev
      obtain ⟨hd, ht⟩ := digits_append_sep_inj _ _ _ _ (toString_nat_isDigit m)
        (toString_nat_isDigit m1) hrev
      simp only [List.cons.injEq, true_and] at ht
      have hm := toString_nat_data_inj m m1 (List.reverse_injective hd)
      rw [hkey k k1 ht, hm]
    | negSucc m1 =>
      simp only at hrev
      obtain ⟨_, ht⟩ := digits_append_sep_inj _ _ _ _ (toString_nat_isDigit m)
        (toString_nat_isDigit (m1 + 1)) hrev
      simp only [List.cons.injEq] at ht
      exact absurd ht.1 (by decide)
  | negSucc m =>
    cases n1 with
    | ofNat m1 =>
      simp only at hrev
      obtain ⟨_, ht⟩ := digits_append_sep_inj _ _ _ _ (toString_nat_isDigit (m + 1))
        (toString_nat_isDigit m1) hrev
      simp only [List.cons.injEq] at ht
      exact absurd ht.1 (by decide)
    | negSucc m1 =>
      simp only at hrev
      obtain ⟨hd, ht⟩ := digits_append_sep_inj _ _ _ _ (toString_nat_isDigit (m + 1))
        (toString_nat_isDigit (m1 + 1)) hrev
      simp only [List.cons.injEq, true_and] at ht
      have hm := toString_nat_data_inj (m + 1) (m1 + 1) (List.reverse_injective hd)
      have hm1 : m = m1 := by omega
      rw [hkey k k1 ht, hm1]

/-! ## The bucket ACL document -/

theorem convertGrants_canonical (grants : List (String × String × String)) :
    convertGrants (canonicalAcl "" "" grants).Grants =
      some (canonicalPolicy "" "" grants).AccessControlList.Grants := by
  induction grants with
  | nil => rfl
  | cons g gs ih =>
    simp only [canonicalAcl, canonicalPolicy, List.map_cons] at ih ⊢
    simp only [convertGrants, convertGrant, ih]

set_option maxRecDepth 100000 in
/-- C16, at the failing input: the backend ACL result has one grant, to a group
grantee, which carries a URI and no ID; `S3ACL` dereferences the nil ID and
panics: no document is built and nothing is written. -/
theorem S3ACL_group_grantee_panics :
    convertGrant { Grantee := some { ID := none, DisplayName := none }, Permission := "READ" }
      = none ∧
    (S3ACL (aclHandler
        { Grants := [{ Grantee := some { ID := none, DisplayName := none }, Permission := "READ" }]
          Owner := some { ID := some "owner-id", DisplayName := some "owner" } })
      (fun _ => "") (fun _ => none) ResponseWriter.new
      (mkRequest [("bucket", "b1")] [] "")).isNone = true := by
  refine ⟨by decide, by decide⟩

/-- Where no pointer is nil: for every backend ACL result whose owner and
grantees all carry an ID and a display name, with grant list `G`, when the two
writes of the response succeed, `S3ACL` builds the policy whose owner id and display name are
the backend owner's and whose grants are those of `G` in the same number and
order, each with the grantee's ID, display name and permission and the
attributes `xmlns:xsi` and `xsi:type = CanonicalUser`; the response is the XML
header line followed by the marshalled document and a newline. -/
theorem S3ACL_builds_policy (handler : S3Handler) (marshal : AWSACLResponse → String)
    (writeErr : String → Option String) (request : Request) (ownerId ownerName : String)
    (G : List (String × String × String))
    (hresp : handler.GetBucketAcl (request.var "bucket") = .ok (canonicalAcl ownerId ownerName G))
    (hwrite : ∀ line, writeErr line = none) :
    ∃ w, S3ACL handler marshal writeErr ResponseWriter.new request =
        some (w, canonicalPolicy ownerId ownerName G) ∧
      (canonicalPolicy ownerId ownerName G).AccessControlList.Grants.length = G.length ∧
      (∀ i (hi : i < G.length),
        ((canonicalPolicy ownerId ownerName G).AccessControlList.Grants.get? i).map
            (fun g => (g.Grantee.Id, g.Grantee.DisplayName, g.Permission, g.Grantee.XmlNS,
              g.Grantee.Xsi)) =
          some ((G.get ⟨i, hi⟩).1, (G.get ⟨i, hi⟩).2.1, (G.get ⟨i, hi⟩).2.2,
            "http://www.w3.org/2001/XMLSchema-instance", "CanonicalUser")) ∧
      w.body = xmlHeader ++ "\n" ++ (marshal (canonicalPolicy ownerId ownerName G) ++ "\n") ∧
      w.status = 200 := by
  have hconv : convertGrants (canonicalAcl ownerId ownerName G).Grants =
      some (canonicalPolicy ownerId ownerName G).AccessControlList.Grants :=
    convertGrants_canonical G
  refine ⟨(ResponseWriter.new.Write (xmlHeader ++ "\n")).Write
    (marshal (canonicalPolicy ownerId ownerName G) ++ "\n"), ?_, ?_, ?_, ?_, ?_⟩
  · simp only [S3ACL, hresp, hconv, writeLine, hwrite]
    rfl
  · simp [canonicalPolicy]
  · intro i hi
    simp [canonicalPolicy, List.getElem?_map, List.getElem?_eq_getElem hi]
  · simp [ResponseWriter.Write, ResponseWriter.WriteHeader, ResponseWriter.new, String.append_assoc]
  · simp [ResponseWriter.Write, ResponseWriter.WriteHeader, ResponseWriter.new,
      ResponseWriter.status]

set_option maxRecDepth 100000 in
theorem S3ACL_builds_policy_witness :
    ∃ w, S3ACL (aclHandler (canonicalAcl "owner-id" "owner"
          [("u1", "alice", "FULL_CONTROL"), ("u2", "bob", "READ")]))
        (fun acl => acl.OwnerId) (fun _ => none) ResponseWriter.new
        (mkRequest [("bucket", "b1")] [] "") =
        some (w, canonicalPolicy "owner-id" "owner"
          [("u1", "alice", "FULL_CONTROL"), ("u2", "bob", "READ")]) ∧
      (canonicalPolicy "owner-id" "owner"
        [("u1", "alice", "FULL_CONTROL"), ("u2", "bob", "READ")]).AccessControlList.Grants.length
          = [("u1", "alice", "FULL_CONTROL"), ("u2", "bob", "READ")].length ∧
      (∀ i (hi : i < [("u1", "alice", "FULL_CONTROL"), ("u2", "bob", "READ")].length),
        ((canonicalPolicy "owner-id" "owner"
          [("u1", "alice", "FULL_CONTROL"), ("u2", "bob", "READ")]).AccessControlList.Grants.get? i).map
            (fun g => (g.Grantee.Id, g.Grantee.DisplayName, g.Permission, g.Grantee.XmlNS,
              g.Grantee.Xsi)) =
          some (([("u1", "alice", "FULL_CONTROL"), ("u2", "bob", "READ")].get ⟨i, hi⟩).1,
            ([("u1", "alice", "FULL_CONTROL"), ("u2", "bob", "READ")].get ⟨i, hi⟩).2.1,
            ([("u1", "alice", "FULL_CONTROL"), ("u2", "bob", "READ")].get ⟨i, hi⟩).2.2,
            "http://www.w3.org/2001/XMLSchema-instance", "CanonicalUser")) ∧
      w.body = xmlHeader ++ "\n" ++ ((fun acl : AWSACLResponse => acl.OwnerId)
        (canonicalPolicy "owner-id" "owner"
          [("u1", "alice", "FULL_CONTROL"), ("u2", "bob", "READ")]) ++ "\n") ∧
      w.status = 200 :=
  S3ACL_builds_policy (aclHandler (canonicalAcl "owner-id" "owner"
      [("u1", "alice", "FULL_CONTROL"), ("u2", "bob", "READ")]))
    (fun acl => acl.OwnerId) (fun _ => none) (mkRequest [("bucket", "b1")] [] "")
    "owner-id" "owner" [("u1", "alice", "FULL_CONTROL"), ("u2", "bob", "READ")]
    rfl (fun _ => rfl)

/-! ## Requests in flight: the counter -/

theorem wrapInt32_of_range (x : Int) (hlo : -(2 ^ 31) ≤ x) (hhi : x < 2 ^ 31) :
    wrapInt32 x = x := by
  unfold wrapInt32
  omega

namespace Serving

theorem load_le_peak (s : Serving) (events : List ServeEvent) :
    s.inside + s.aborted ≤ s.peak events := by
  cases events with
  | nil => exact Nat.le_refl _
  | cons e es =>
    simp only [peak]
    split
    · exact Nat.le_refl _
    · exact Nat.le_max_left _ _

/-- While fewer than `2^31` first additions are not undone, the counter is the
number of requests inside plus the number of requests that left by a panic. -/
theorem counter_eq (events : List ServeEvent) :
    ∀ s s1 : Serving, s.run events = some s1 →
      s.router.currentRequests = (s.inside : Int) + (s.aborted : Int) →
      s.peak events < 2 ^ 31 →
      s1.router.currentRequests = (s1.inside : Int) + (s1.aborted : Int) := by
  induction events with
  | nil =>
    intro s s1 hrun hinv _
    simp only [run, Option.some.injEq] at hrun
    rw [← hrun]; exact hinv
  | cons e es ih =>
    intro s s1 hrun hinv hpeak
    simp only [run] at hrun
    simp only [peak] at hpeak
    cases hstep : s.step e with
    | none => rw [hstep] at hrun; simp at hrun
    | some s2 =>
      rw [hstep] at hrun hpeak
      simp only at hrun hpeak
      have hp2 : s2.peak es < 2 ^ 31 := lt_of_le_of_lt (Nat.le_max_right _ _) hpeak
      have hl2 := load_le_peak s2 es
      have hl : s.inside + s.aborted < 2 ^ 31 := lt_of_le_of_lt (Nat.le_max_left _ _) hpeak
      apply ih s2 s1 hrun _ hp2
      cases e with
      | enter =>
        simp only [step, Option.some.injEq] at hstep
        subst hstep
        have hl3 : s.inside + 1 + s.aborted < 2 ^ 31 := lt_of_le_of_lt hl2 hp2
        simp only [RouterWithCounter.AddInt32]
        rw [wrapInt32_of_range _ (by omega) (by omega), hinv]
        push_cast
        omega
      | leave =>
        simp only [step] at hstep
        split at hstep
        · simp at hstep
        · rename_i hne
          simp only [Option.some.injEq] at hstep
          subst hstep
          simp only [RouterWithCounter.AddInt32]
          rw [wrapInt32_of_range _ (by omega) (by omega), hinv]
          omega
      | abort =>
        simp only [step] at hstep
        split at hstep
        · simp at hstep
        · rename_i hne
          simp only [Option.some.injEq] at hstep
          subst hstep
          simp only
          rw [hinv]
          omega

/-- Without panics no request is counted as aborted. -/
theorem aborted_eq (events : List ServeEvent) :
    ∀ s s1 : Serving, s.run events = some s1 → (∀ e ∈ events, e ≠ ServeEvent.abort) →
      s1.aborted = s.aborted := by
  induction events with
  | nil =>
    intro s s1 hrun _
    simp only [run, Option.some.injEq] at hrun
    rw [← hrun]
  | cons e es ih =>
    intro s s1 hrun hne
    simp only [run] at hrun
    cases hstep : s.step e with
    | none => rw [hstep] at hrun; simp at hrun
    | some s2 =>
      rw [hstep] at hrun
      rw [ih s2 s1 hrun (fun x hx => hne x (List.mem_cons_of_mem _ hx))]
      cases e with
      | enter =>
        simp only [step, Option.some.injEq] at hstep
        rw [← hstep]
      | leave =>
        simp only [step] at hstep
        split at hstep
        · simp at hstep
        · simp only [Option.some.injEq] at hstep
          rw [← hstep]
      | abort => exact absurd rfl (hne _ (List.mem_cons_self _ _))

end Serving

/-- C12, at the failing input: one request enters a fresh router and its inner
mux panics. No request is inside any more, and `currentRequests` is 1: it is
not the number of requests inside, and it is not 0 although no request is
inside. -/
theorem Serving_panic_leaves_count :
    ((Serving.start ⟨0, "s3", []⟩ 1).run [ServeEvent.enter, ServeEvent.abort]).map
        (fun s => (s.router.currentRequests, s.inside)) = some (1, 0) ∧
    ((⟨1, ⟨0, "s3", []⟩, 0⟩ : RouterWithCounter).ServeHTTP true).currentRequests = 1 := by
  refine ⟨by decide, by decide⟩

/-- Where every inner mux returns: for every router created with counter 0 and
every sequence of requests entering it and leaving it by a normal return, in
which fewer than `2^31` requests are inside at any time, `currentRequests` is
never negative and equals the number of requests inside; in particular it is 0
if and only if no request is inside. -/
theorem Serving_counts_inside (mux : MuxRouter) (addr : Nat) (events : List ServeEvent)
    (s : Serving) (hrun : (Serving.start mux addr).run events = some s)
    (hnormal : ∀ e ∈ events, e ≠ ServeEvent.abort)
    (hpeak : (Serving.start mux addr).peak events < 2 ^ 31) :
    s.router.currentRequests = (s.inside : Int) ∧ 0 ≤ s.router.currentRequests ∧
    (s.router.currentRequests = 0 ↔ s.inside = 0) := by
  have hc := Serving.counter_eq events _ s hrun (by simp [Serving.start]) hpeak
  have ha := Serving.aborted_eq events _ s hrun hnormal
  have ha0 : s.aborted = 0 := by rw [ha]; rfl
  rw [ha0] at hc
  simp only [Nat.cast_zero, add_zero] at hc
  refine ⟨hc, by rw [hc]; exact Int.natCast_nonneg _, ?_⟩
  rw [hc]
  exact Int.natCast_eq_zero

theorem Serving_counts_inside_witness :
    ∃ s, (Serving.start ⟨0, "s3", []⟩ 1).run
        [ServeEvent.enter, ServeEvent.enter, ServeEvent.leave] = some s ∧
      s.router.currentRequests = (s.inside : Int) ∧ 0 ≤ s.router.currentRequests ∧
      (s.router.currentRequests = 0 ↔ s.inside = 0) :=
  ⟨_, rfl, Serving_counts_inside ⟨0, "s3", []⟩ 1
    [ServeEvent.enter, ServeEvent.enter, ServeEvent.leave] _ rfl (by decide) (by decide)⟩

/-! ## Requests in flight: the drain -/

theorem shutdownCalls_waitingEvents (load : Nat → Int) (i n : Nat) :
    shutdownCalls (waitingEvents load i n) = 0 := by
  induction n generalizing i with
  | zero => rfl
  | succ n ih =>
    have h := ih (i + 1)
    simp only [shutdownCalls, waitingEvents, List.range'_succ, List.flatMap_cons,
      List.cons_append, List.nil_append, List.countP_cons] at h ⊢
    simpa using h

theorem waitingEvents_succ (load : Nat → Int) (i n : Nat) :
    waitingEvents load i (n + 1) =
      DrainEvent.load (load i) :: DrainEvent.sleep :: waitingEvents load (i + 1) n := by
  simp [waitingEvents, List.range'_succ]

/-- The first ready iteration lies in the range searched, its load is not
positive, and every earlier load is positive. -/
theorem firstReady_spec (load : Nat → Int) (n : Nat) :
    ∀ i k, firstReady load i n = some k →
      i ≤ k ∧ k < i + n ∧ load k ≤ 0 ∧ ∀ j, i ≤ j → j < k → 0 < load j := by
  induction n with
  | zero => intro i k h; simp [firstReady] at h
  | succ n ih =>
    intro i k h
    simp only [firstReady, List.range'_succ, List.find?_cons] at h
    by_cases hi : load i ≤ 0
    · simp only [hi, decide_True, Option.some.injEq] at h
      subst h
      exact ⟨Nat.le_refl _, by omega, hi, fun j h1 h2 => by omega⟩
    · simp only [hi, decide_False] at h
      obtain ⟨h1, h2, h3, h4⟩ := ih (i + 1) k h
      refine ⟨by omega, by omega, h3, fun j hj1 hj2 => ?_⟩
      by_cases hji : j = i
      · subst hji; omega
      · exact h4 j (by omega) hj2

theorem firstReady_none (load : Nat → Int) (n : Nat) :
    ∀ i, firstReady load i n = none → ∀ j, i ≤ j → j < i + n → 0 < load j := by
  induction n with
  | zero => intro i _ j h1 h2; omega
  | succ n ih =>
    intro i h j h1 h2
    simp only [firstReady, List.range'_succ, List.find?_cons] at h
    by_cases hi : load i ≤ 0
    · simp [hi] at h
    · simp only [hi, decide_False] at h
      by_cases hji : j = i
      · subst hji; omega
      · exact ih (i + 1) h j (by omega) (by omega)

/-- The run of a drain, started at iteration `i`: it sleeps through the
iterations whose load is positive and calls `Shutdown` in the first whose load
is not, if there is one within the iterations run. -/
theorem ShutdownWhenReady_from (load : Nat → Int) (h : ServiceHandler) (fuel : Nat) :
    ∀ i, ShutdownWhenReady load (some h) fuel i =
      match firstReady load i fuel with
      | some k =>
        (waitingEvents load i (k - i) ++ [DrainEvent.load (load k), DrainEvent.shutdown h],
          DrainEnd.returned)
      | none => (waitingEvents load i fuel, DrainEnd.looping) := by
  induction fuel with
  | zero => intro i; rfl
  | succ fuel ih =>
    intro i
    by_cases hi : load i ≤ 0
    · have hf : firstReady load i (fuel + 1) = some i := by
        simp [firstReady, List.range'_succ, hi]
      simp [ShutdownWhenReady, hi, hf, waitingEvents]
    · have hf : firstReady load i (fuel + 1) = firstReady load (i + 1) fuel := by
        simp [firstReady, List.range'_succ, hi]
      rw [hf]
      simp only [ShutdownWhenReady, hi, if_false, ih (i + 1)]
      cases hk : firstReady load (i + 1) fuel with
      | none => simp [waitingEvents_succ]
      | some k =>
        have hle := (firstReady_spec load fuel (i + 1) k hk).1
        have hsub : k - i = (k - (i + 1)) + 1 := by omega
        simp [hsub, waitingEvents_succ]

/-- C14, counterexample: a drain whose every load of the counter returns 1 does
not call `Shutdown` within any number of iterations: `Shutdown` is not invoked
exactly once. -/
theorem ShutdownWhenReady_never_ready :
    ¬ ∃ fuel, shutdownCalls
      (ShutdownWhenReady (fun _ => 1) (some ⟨1, "s3", "k1"⟩) fuel 0).1 = 1 := by
  rintro ⟨fuel, h⟩
  rw [ShutdownWhenReady_from] at h
  have hnone : firstReady (fun _ => (1 : Int)) 0 fuel = none := by
    simp [firstReady]
  rw [hnone] at h
  simp only [shutdownCalls_waitingEvents] at h
  exact absurd h (by decide)

/-- C14, as amended: `ShutdownWhenReady` on a handler that is not nil, run for
any number of iterations, sleeps through every iteration whose load of
`currentRequests` is positive without calling `Shutdown`; in the first
iteration whose load returns a value `≤ 0` it calls `Shutdown` and returns. So
`Shutdown` is called at most once, only after a load `≤ 0`, and exactly once
if and only if one of the loads made returns a value `≤ 0`. -/
theorem ShutdownWhenReady_trace (load : Nat → Int) (h : ServiceHandler) (fuel : Nat) :
    (ShutdownWhenReady load (some h) fuel 0 =
      match firstReady load 0 fuel with
      | some k =>
        (waitingEvents load 0 k ++ [DrainEvent.load (load k), DrainEvent.shutdown h],
          DrainEnd.returned)
      | none => (waitingEvents load 0 fuel, DrainEnd.looping)) ∧
    (∀ k, firstReady load 0 fuel = some k → load k ≤ 0 ∧ ∀ j, j < k → 0 < load j) ∧
    shutdownCalls (waitingEvents load 0 fuel) = 0 ∧
    shutdownCalls (ShutdownWhenReady load (some h) fuel 0).1 ≤ 1 ∧
    (shutdownCalls (ShutdownWhenReady load (some h) fuel 0).1 = 1 ↔
      ∃ k, k < fuel ∧ load k ≤ 0) := by
  have hfrom := ShutdownWhenReady_from load h fuel 0
  simp only [Nat.sub_zero] at hfrom
  have hcount : ∀ k, shutdownCalls
      (waitingEvents load 0 k ++ [DrainEvent.load (load k), DrainEvent.shutdown h]) = 1 := by
    intro k
    have h0 := shutdownCalls_waitingEvents load 0 k
    simp only [shutdownCalls] at h0 ⊢
    simp [List.countP_append, h0, List.countP_cons]
  refine ⟨hfrom, ?_, shutdownCalls_waitingEvents load 0 fuel, ?_, ?_⟩
  · intro k hk
    obtain ⟨_, _, h3, h4⟩ := firstReady_spec load fuel 0 k hk
    exact ⟨h3, fun j hj => h4 j (Nat.zero_le _) hj⟩
  · rw [hfrom]
    cases hk : firstReady load 0 fuel with
    | none => simp [shutdownCalls_waitingEvents]
    | some k => simp [hcount]
  · rw [hfrom]
    cases hk : firstReady load 0 fuel with
    | none =>
      simp only [shutdownCalls_waitingEvents]
      constructor
      · intro h0; exact absurd h0 (by decide)
      · rintro ⟨k, hk1, hk2⟩
        have := firstReady_none load fuel 0 hk k (Nat.zero_le _) (by omega)
        omega
    | some k =>
      simp only [hcount, true_iff]
      obtain ⟨_, h2, h3, _⟩ := firstReady_spec load fuel 0 k hk
      exact ⟨k, by omega, h3⟩

/-! ## Requests in flight: the router wrapper -/

namespace Live

theorem point_set_self (requests : List RequestPoint) (j : Nat) (p q : RequestPoint)
    (hj : requests.get? j = some p) : (requests.set j q).get? j = some q := by
  have hlt : j < requests.length := by
    by_contra hge
    rw [List.get?_eq_none.mpr (by omega)] at hj
    exact absurd hj (by simp)
  simp [List.getElem?_set, hlt]

theorem point_set_of_ne (requests : List RequestPoint) (i j : Nat) (q : RequestPoint)
    (hij : i ≠ j) : (requests.set j q).get? i = requests.get? i := by
  have hji : j ≠ i := fun h => hij h.symm
  simp [List.getElem?_set, hji]

/-- Replacing the point of request `j` by one on the same router, or giving a
router to a request that had none, keeps the router of every request that has
one. -/
theorem routerOf_set (requests : List RequestPoint) (j : Nat) (p q : RequestPoint)
    (hj : requests.get? j = some p) (hpq : p.router? = none ∨ q.router? = p.router?)
    (i r : Nat) (h : (requests.get? i).bind RequestPoint.router? = some r) :
    ((requests.set j q).get? i).bind RequestPoint.router? = some r := by
  by_cases hij : i = j
  · subst hij
    rw [hj] at h
    simp only [Option.some_bind] at h
    rw [point_set_self requests i p q hj]
    simp only [Option.some_bind]
    rcases hpq with h0 | h0
    · rw [h0] at h; exact absurd h (by simp)
    · rw [h0]; exact h
  · rw [point_set_of_ne requests i j q hij]; exact h

/-- After such a replacement a request has the router it had, or the router
just given. -/
theorem routerOf_set_inv (requests : List RequestPoint) (j w : Nat) (p q : RequestPoint)
    (hj : requests.get? j = some p) (hpq : q.router? = p.router? ∨ q.router? = some w)
    (i r : Nat) (h : ((requests.set j q).get? i).bind RequestPoint.router? = some r) :
    (requests.get? i).bind RequestPoint.router? = some r ∨ r = w := by
  by_cases hij : i = j
  · subst hij
    rw [point_set_self requests i p q hj] at h
    simp only [Option.some_bind] at h
    rcases hpq with h0 | h0
    · left; rw [hj]; simp only [Option.some_bind]; rw [← h0]; exact h
    · right
      rw [h0] at h
      exact (Option.some.inj h).symm
  · left; rw [point_set_of_ne requests i j q hij] at h; exact h

/-- What `serve` changes: the point of the request and the router served. -/
theorem serve_eq (s s1 : Live) (i r : Nat) (e : ServeEvent) (next : RequestPoint)
    (h : s.serve i r e next = some s1) :
    s1.requests = s.requests.set i next ∧ s1.wrapper = s.wrapper ∧
    (∀ a, a ≠ r → s1.routers a = s.routers a) ∧
    (s.routers r).step e = some (s1.routers r) := by
  unfold serve at h
  split at h
  · simp at h
  · rename_i served hs
    simp only [Option.some.injEq] at h
    subst h
    exact ⟨rfl, rfl, fun a ha => by simp [ha], by simp [hs]⟩

/-- A request that has captured an inner router keeps it through every step. -/
theorem step_routerOf (s s1 : Live) (a : Action) (h : s.step a = some s1) (i r : Nat)
    (hi : s.routerOf i = some r) : s1.routerOf i = some r := by
  unfold routerOf at hi ⊢
  cases a with
  | arrive =>
    simp only [step, Option.some.injEq] at h
    subst h
    have hlt : i < s.requests.length := by
      by_contra hge
      rw [List.get?_eq_none.mpr (by omega)] at hi
      simp at hi
    simpa [List.getElem?_append_left hlt] using hi
  | capture j =>
    simp only [step] at h
    split at h
    · rename_i hj
      simp only [Option.some.injEq] at h
      subst h
      exact routerOf_set _ j RequestPoint.arrived (RequestPoint.captured s.wrapper) hj (Or.inl rfl) i r hi
    · simp at h
  | enter j =>
    simp only [step] at h
    split at h
    · rename_i r0 hj
      rw [(serve_eq _ _ _ _ _ _ h).1]
      exact routerOf_set _ j (RequestPoint.captured r0) (RequestPoint.inMux r0) hj (Or.inr rfl) i r hi
    · simp at h
  | leave j =>
    simp only [step] at h
    split at h
    · rename_i r0 hj
      rw [(serve_eq _ _ _ _ _ _ h).1]
      exact routerOf_set _ j (RequestPoint.inMux r0) (RequestPoint.returned r0) hj (Or.inr rfl) i r hi
    · simp at h
  | abort j =>
    simp only [step] at h
    split at h
    · rename_i r0 hj
      rw [(serve_eq _ _ _ _ _ _ h).1]
      exact routerOf_set _ j (RequestPoint.inMux r0) (RequestPoint.panicked r0) hj (Or.inr rfl) i r hi
    · simp at h
  | changeRouter n o =>
    simp only [step, Option.some.injEq] at h
    subst h
    exact hi

/-- A step other than `ChangeRouter` keeps the inner router installed, and a
request with a router after it had that router before or has just captured the
installed one. -/
theorem step_no_change (s s1 : Live) (a : Action) (h : s.step a = some s1)
    (ha : a.isChange = false) :
    s1.wrapper = s.wrapper ∧
    ∀ i r, s1.routerOf i = some r → s.routerOf i = some r ∨ r = s.wrapper := by
  unfold routerOf
  cases a with
  | arrive =>
    simp only [step, Option.some.injEq] at h
    subst h
    refine ⟨rfl, fun i r hi => ?_⟩
    left
    by_cases hlt : i < s.requests.length
    · simpa [List.getElem?_append_left hlt] using hi
    · exfalso
      by_cases heq : i = s.requests.length
      · subst heq
        simp [RequestPoint.router?] at hi
      · have hge : s.requests.length + 1 ≤ i := by omega
        rw [List.get?_eq_none.mpr (by simpa using hge)] at hi
        simp at hi
  | capture j =>
    simp only [step] at h
    split at h
    · rename_i hj
      simp only [Option.some.injEq] at h
      subst h
      exact ⟨rfl, fun i r hi => routerOf_set_inv _ j s.wrapper RequestPoint.arrived
        (RequestPoint.captured s.wrapper) hj (Or.inr rfl) i r hi⟩
    · simp at h
  | enter j =>
    simp only [step] at h
    split at h
    · rename_i r0 hj
      obtain ⟨h1, h2, _, _⟩ := serve_eq _ _ _ _ _ _ h
      refine ⟨h2, fun i r hi => ?_⟩
      rw [h1] at hi
      exact routerOf_set_inv _ j s.wrapper (RequestPoint.captured r0) (RequestPoint.inMux r0) hj
        (Or.inl rfl) i r hi
    · simp at h
  | leave j =>
    simp only [step] at h
    split at h
    · rename_i r0 hj
      obtain ⟨h1, h2, _, _⟩ := serve_eq _ _ _ _ _ _ h
      refine ⟨h2, fun i r hi => ?_⟩
      rw [h1] at hi
      exact routerOf_set_inv _ j s.wrapper (RequestPoint.inMux r0) (RequestPoint.returned r0) hj
        (Or.inl rfl) i r hi
    · simp at h
  | abort j =>
    simp only [step] at h
    split at h
    · rename_i r0 hj
      obtain ⟨h1, h2, _, _⟩ := serve_eq _ _ _ _ _ _ h
      refine ⟨h2, fun i r hi => ?_⟩
      rw [h1] at hi
      exact routerOf_set_inv _ j s.wrapper (RequestPoint.inMux r0) (RequestPoint.panicked r0) hj
        (Or.inl rfl) i r hi
    · simp at h
  | changeRouter n o => simp [Action.isChange] at ha

/-- A step of a request that has captured the router at `r` is an event on
that router and leaves every other router as it is. -/
theorem step_frame (s s1 : Live) (a : Action) (h : s.step a = some s1) (i r : Nat)
    (hreq : a.request? = some i) (hi : s.routerOf i = some r) :
    (∀ r1, r1 ≠ r → s1.routers r1 = s.routers r1) ∧
    ((s.routers r).step ServeEvent.enter = some (s1.routers r) ∨
     (s.routers r).step ServeEvent.leave = some (s1.routers r) ∨
     (s.routers r).step ServeEvent.abort = some (s1.routers r)) := by
  unfold routerOf at hi
  cases a with
  | arrive => simp [Action.request?] at hreq
  | changeRouter n o => simp [Action.request?] at hreq
  | capture j =>
    simp only [Action.request?, Option.some.injEq] at hreq
    subst hreq
    simp only [step] at h
    split at h
    · rename_i hj
      rw [hj] at hi
      simp [RequestPoint.router?] at hi
    · simp at h
  | enter j =>
    simp only [Action.request?, Option.some.injEq] at hreq
    subst hreq
    simp only [step] at h
    split at h
    · rename_i r0 hj
      rw [hj] at hi
      simp only [Option.some_bind, RequestPoint.router?, Option.some.injEq] at hi
      subst hi
      obtain ⟨_, _, h3, h4⟩ := serve_eq _ _ _ _ _ _ h
      exact ⟨h3, Or.inl h4⟩
    · simp at h
  | leave j =>
    simp only [Action.request?, Option.some.injEq] at hreq
    subst hreq
    simp only [step] at h
    split at h
    · rename_i r0 hj
      rw [hj] at hi
      simp only [Option.some_bind, RequestPoint.router?, Option.some.injEq] at hi
      subst hi
      obtain ⟨_, _, h3, h4⟩ := serve_eq _ _ _ _ _ _ h
      exact ⟨h3, Or.inr (Or.inl h4)⟩
    · simp at h
  | abort j =>
    simp only [Action.request?, Option.some.injEq] at hreq
    subst hreq
    simp only [step] at h
    split at h
    · rename_i r0 hj
      rw [hj] at hi
      simp only [Option.some_bind, RequestPoint.router?, Option.some.injEq] at hi
      subst hi
      obtain ⟨_, _, h3, h4⟩ := serve_eq _ _ _ _ _ _ h
      exact ⟨h3, Or.inr (Or.inr h4)⟩
    · simp at h

theorem run_routerOf (actions : List Action) :
    ∀ s s1 : Live, s.run actions = some s1 → ∀ i r, s.routerOf i = some r →
      s1.routerOf i = some r := by
  induction actions with
  | nil =>
    intro s s1 h i r hi
    simp only [run, Option.some.injEq] at h
    subst h; exact hi
  | cons a as ih =>
    intro s s1 h i r hi
    simp only [run] at h
    cases hs : s.step a with
    | none => rw [hs] at h; simp at h
    | some s2 =>
      rw [hs] at h
      exact ih s2 s1 h i r (step_routerOf s s2 a hs i r hi)

theorem run_no_change (actions : List Action) :
    ∀ s s1 : Live, s.run actions = some s1 → (∀ a ∈ actions, a.isChange = false) →
      s1.wrapper = s.wrapper ∧
      ∀ i r, s1.routerOf i = some r → s.routerOf i = some r ∨ r = s.wrapper := by
  induction actions with
  | nil =>
    intro s s1 h _
    simp only [run, Option.some.injEq] at h
    subst h
    exact ⟨rfl, fun i r hi => Or.inl hi⟩
  | cons a as ih =>
    intro s s1 h hno
    simp only [run] at h
    cases hs : s.step a with
    | none => rw [hs] at h; simp at h
    | some s2 =>
      rw [hs] at h
      obtain ⟨hw, hr⟩ := step_no_change s s2 a hs (hno a (List.mem_cons_self _ _))
      obtain ⟨hw2, hr2⟩ := ih s2 s1 h (fun x hx => hno x (List.mem_cons_of_mem _ hx))
      refine ⟨hw2.trans hw, fun i r hi => ?_⟩
      rcases hr2 i r hi with h1 | h1
      · exact hr i r h1
      · right; rw [h1, hw]

end Live

/-- C13: take any state of a wrapper, run `ChangeRouter(newRouter, oldHandler)`
and then any steps of requests. After `ChangeRouter` the inner router installed
is `newRouter` and the drain of the old one with the old handler has been
started; it stays `newRouter`. A request that had captured an inner router
before the swap keeps that router; a request that captures afterwards gets
`newRouter`. Every step of a request is an event on the router it captured and
leaves the counter of every other router, the new one included, as it is. -/
theorem ChangeRouter_delegation (s0 s2 : Live) (newRouter : Nat)
    (oldHandler : Option ServiceHandler) (actions : List Action)
    (hrun : s0.run (Action.changeRouter newRouter oldHandler :: actions) = some s2)
    (hno : ∀ a ∈ actions, a.isChange = false) :
    (∃ s1, s0.step (Action.changeRouter newRouter oldHandler) = some s1 ∧
      s1.wrapper = newRouter ∧ s1.requests = s0.requests ∧
      s1.draining = s0.draining ++ [(s0.wrapper, oldHandler)] ∧
      s1.run actions = some s2) ∧
    s2.wrapper = newRouter ∧
    (∀ i r, s0.routerOf i = some r → s2.routerOf i = some r) ∧
    (∀ i r, s2.routerOf i = some r → s0.routerOf i = some r ∨ r = newRouter) ∧
    (∀ (t t1 : Live) (a : Action) (i r : Nat), t.step a = some t1 → a.request? = some i →
      t.routerOf i = some r →
      (∀ r1, r1 ≠ r → t1.routers r1 = t.routers r1) ∧
      ((t.routers r).step ServeEvent.enter = some (t1.routers r) ∨
       (t.routers r).step ServeEvent.leave = some (t1.routers r) ∨
       (t.routers r).step ServeEvent.abort = some (t1.routers r))) := by
  have hstep : s0.step (Action.changeRouter newRouter oldHandler) =
      some { s0 with wrapper := newRouter,
                     draining := s0.draining ++ [(s0.wrapper, oldHandler)] } := rfl
  simp only [Live.run, hstep] at hrun
  obtain ⟨hw, hr⟩ := Live.run_no_change actions _ s2 hrun hno
  refine ⟨⟨_, hstep, rfl, rfl, rfl, hrun⟩, hw, ?_, ?_, ?_⟩
  · intro i r hi
    exact Live.run_routerOf actions _ s2 hrun i r hi
  · intro i r hi
    exact hr i r hi
  · intro t t1 a i r ht ha hi
    exact Live.step_frame t t1 a ht i r ha hi

set_option maxRecDepth 100000 in
theorem ChangeRouter_delegation_witness :
    liveBeforeSwap.routerOf 0 = some 0 ∧
    liveAfterSwap.wrapper = 1 ∧
    liveAfterSwap.routerOf 0 = some 0 ∧
    liveAfterSwap.routerOf 1 = some 1 ∧
    ((liveAfterSwap.routers 0).router.currentRequests,
      (liveAfterSwap.routers 1).router.currentRequests) = (0, 1) ∧
    liveAfterSwap.draining = [(0, some ⟨7, "s3", "k1"⟩)] := by
  have h := ChangeRouter_delegation liveBeforeSwap liveAfterSwap 1 (some ⟨7, "s3", "k1"⟩)
    [Action.arrive, Action.capture 1, Action.enter 0, Action.enter 1, Action.leave 0]
    rfl (by decide)
  exact ⟨by decide, h.2.1, h.2.2.1 0 0 (by decide), by decide, by decide, by decide⟩

end Sidecar
